import Mathlib

/-!
Verification of the da2cf reconciliation engine.

This file gives a shallow embedding, in Lean 4, of the parts of the da2cf
code base that the specification talks about:

* `src/da2cf/utils/dns.py` — record normalization (`normalize_name`,
  `normalize_txt_content`, `normalize_da_record`, `normalize_cf_record`,
  `record_key`, `should_exclude`, including the `fnmatch` glob matcher they
  rely on);
* `src/da2cf/models.py` — the `DNSRecord` data model, `ProxyPolicy`,
  `PlanOperation` and `SyncPlan`;
* `src/da2cf/sync_service.py` — the planner `SyncService._compute_plan`,
  the executor `SyncService._apply_operations`, payload construction
  `SyncService._to_cf_payload`, and the orchestration in
  `SyncService.apply_plan`;
* `src/da2cf/clients/directadmin.py` — the response handling of
  `DirectAdminClient.get_dns_records` (JSON and legacy parsers).

Python strings are modelled as Lean `String`; every Python string operation
used by the code (`lower`, `upper`, `strip`, `rstrip`, `startswith`,
`endswith`, slicing, `split`, `splitlines`, `isdigit`, glob matching) is
defined here explicitly over the character list, mirroring CPython's
behaviour on the ASCII inputs the program manipulates.  Python `None` /
falsiness (`or` chains, `if not x`) is modelled explicitly (`PyVal`,
`pyTruthyS`, …).  HTTP calls are modelled by passing the response (for the
DirectAdmin client) or a behaviour oracle mapping each attempted mutation to
either success or a raised exception's message (for the Cloudflare client);
`requests.Response.raise_for_status` raises exactly for status codes in
[400, 600).
-/


/-- ASCII lowercasing of one character, as CPython's `str.lower` acts on
ASCII: `A`–`Z` (code points 65–90) map 32 code points up, everything else is
unchanged. -/
def pyLowerChar (c : Char) : Char :=
  if 65 ≤ c.toNat ∧ c.toNat ≤ 90 then Char.ofNat (c.toNat + 32) else c

/-- ASCII uppercasing of one character (CPython `str.upper` on ASCII). -/
def pyUpperChar (c : Char) : Char :=
  if 97 ≤ c.toNat ∧ c.toNat ≤ 122 then Char.ofNat (c.toNat - 32) else c

/-- Python `s.lower()`. -/
def pyLower (s : String) : String := ⟨s.data.map pyLowerChar⟩

/-- Python `s.upper()`. -/
def pyUpper (s : String) : String := ⟨s.data.map pyUpperChar⟩

/-- Python `s.startswith(pre)`. -/
def pyStartsWith (s pre : String) : Bool := pre.data.isPrefixOf s.data

/-- Python `s.endswith(suf)`. -/
def pyEndsWith (s suf : String) : Bool := suf.data.isSuffixOf s.data

/-- Python `s.rstrip(str(c))`: remove every trailing occurrence of `c`. -/
def pyRstripChar (s : String) (c : Char) : String :=
  ⟨(s.data.reverse.dropWhile (· == c)).reverse⟩

/-- Python `s.strip()`: remove leading and trailing whitespace. -/
def pyStripWs (s : String) : String :=
  ⟨((s.data.dropWhile Char.isWhitespace).reverse.dropWhile Char.isWhitespace).reverse⟩

/-- Python `s[:n]` for `0 ≤ n` (character count). -/
def strTake (s : String) (n : Nat) : String := ⟨s.data.take n⟩

/-- Python `c in s` for a single character. -/
def strContainsChar (s : String) (c : Char) : Bool := s.data.contains c

/-- Python `s.isdigit()` restricted to ASCII digits (the only digits the
program feeds it): nonempty and all characters `0`–`9`. -/
def pyIsDigit (s : String) : Bool := !s.data.isEmpty && s.data.all Char.isDigit

/-- Numeric value of an ASCII digit string (CPython `int(s)` on the strings
accepted by `pyIsDigit`). -/
def digitsToNat (s : String) : Nat :=
  s.data.foldl (fun acc c => acc * 10 + (c.toNat - 48)) 0

/-- A Python value as it appears in a provider-row dictionary slot: the key
may be absent, or hold `None`, a string, an int, or a bool. -/
inductive PyVal where
  | absent
  | pynone
  | str (s : String)
  | int (n : Int)
  | bool (b : Bool)
deriving DecidableEq, Repr

/-- Python `row.get(key, default)`: the slot's value if the key is present,
else the default. -/
def PyVal.get (v d : PyVal) : PyVal :=
  match v with
  | .absent => d
  | v => v

/-- Python `row.get(key)` (default `None`). -/
def PyVal.getNone (v : PyVal) : PyVal := v.get .pynone

/-- Python truthiness of a value: `None`, `""`, `0` and `False` are falsy. -/
def PyVal.truthy : PyVal → Bool
  | .absent => false
  | .pynone => false
  | .str s => decide (s ≠ "")
  | .int n => decide (n ≠ 0)
  | .bool b => b

/-- Python `a or b`: `a` if truthy, else `b`. -/
def pyOr (a b : PyVal) : PyVal := if a.truthy then a else b

/-- Python `str(v)`. -/
def PyVal.pyStr : PyVal → String
  | .absent => "None"
  | .pynone => "None"
  | .str s => s
  | .int n => toString n
  | .bool b => if b then "True" else "False"

/-- The `ttl`/`priority` pre-conversion in `normalize_da_record`:
`if isinstance(v, str) and v.isdigit(): v = int(v)`. -/
def pyDigitToInt (v : PyVal) : PyVal :=
  match v with
  | .str s => if pyIsDigit s then .int (digitsToNat s) else .str s
  | v => v

/-- Coercion of a row value into the `Optional[int]` model fields of
`DNSRecord` (pydantic).  The program always pre-converts digit strings with
`pyDigitToInt`; any remaining non-integer value would make pydantic raise,
which no code path modelled here exercises, so those map to `none`. -/
def PyVal.toOptInt : PyVal → Option Int
  | .int n => some n
  | _ => none

/-- Coercion of a row value into an `Optional[bool]` model field. -/
def PyVal.toOptBool : PyVal → Option Bool
  | .bool b => some b
  | _ => none

/-- Coercion of a row value into an `Optional[str]` model field. -/
def PyVal.toOptStr : PyVal → Option String
  | .str s => some s
  | _ => none

/-- Python truthiness of an `Optional[str]`: `None` and `""` are falsy
(`if not domain.cf_zone_id`, `if not op.current.cf_id`). -/
def pyTruthyS : Option String → Bool
  | none => false
  | some s => decide (s ≠ "")

/-- Membership of a character in an fnmatch bracket-class body, honouring
`a-z` ranges (the translation CPython's `fnmatch.translate` produces). -/
def memberOfSet : List Char → Char → Bool
  | a :: '-' :: b :: rest, c => (decide (a ≤ c) && decide (c ≤ b)) || memberOfSet rest c
  | a :: rest, c => (a == c) || memberOfSet rest c
  | [], _ => false

/-- Split a character list at the first `]`, returning the body before it
and the remainder after it; `none` when no `]` occurs. -/
def splitAtClose : List Char → Option (List Char × List Char)
  | [] => none
  | ']' :: t => some ([], t)
  | c :: t =>
    match splitAtClose t with
    | some (b, r) => some (c :: b, r)
    | none => none

/-- Parse an fnmatch bracket class from the text following `[`: an optional
leading `!` negates; a `]` directly after that is a literal member; the class
ends at the next `]`.  Returns (negated, body, rest); `none` when the class
is unterminated (then `[` is a literal, as in `fnmatch.translate`). -/
def splitClass (cs : List Char) : Option (Bool × List Char × List Char) :=
  match cs with
  | '!' :: t =>
    (match t with
     | ']' :: t2 => (splitAtClose t2).map (fun p => (true, ']' :: p.1, p.2))
     | _ => (splitAtClose t).map (fun p => (true, p.1, p.2)))
  | ']' :: t2 => (splitAtClose t2).map (fun p => (false, ']' :: p.1, p.2))
  | _ => (splitAtClose cs).map (fun p => (false, p.1, p.2))

/-- Full-string glob matching, fuel-indexed so that the recursion is
structural (and therefore evaluates inside the kernel).  Every recursive
call strictly decreases `p.length + s.length`, so with the fuel chosen in
`globMatch` below the `0` branch is unreachable. -/
def globMatchF : Nat → List Char → List Char → Bool
  | 0, _, _ => false
  | fuel + 1, p, s =>
    match p, s with
    | [], s => s.isEmpty
    | '*' :: ps, [] => globMatchF fuel ps []
    | '*' :: ps, c :: cs => globMatchF fuel ps (c :: cs) || globMatchF fuel ('*' :: ps) cs
    | '?' :: _, [] => false
    | '?' :: ps, _ :: cs => globMatchF fuel ps cs
    | '[' :: _, [] => false
    | '[' :: ps, c :: cs =>
      (match splitClass ps with
       | none => (c == '[') && globMatchF fuel ps cs
       | some (neg, body, rest) => (memberOfSet body c != neg) && globMatchF fuel rest cs)
    | _ :: _, [] => false
    | p1 :: ps, c :: cs => (p1 == c) && globMatchF fuel ps cs

/-- Full-string glob matching of pattern `p` against string `s`, as
`fnmatch.fnmatchcase` (which `fnmatch.fnmatch` is on POSIX): `*` matches any
run, `?` any one character, `[...]`/`[!...]` a (negated) character class. -/
def globMatch (p s : List Char) : Bool := globMatchF (p.length + s.length + 1) p s

/-- Python `fnmatch.fnmatch(name, pat)` (POSIX, where `normcase` is the
identity). -/
def fnmatch (name pat : String) : Bool := globMatch pat.data name.data

/-- The canonical DNS record, `da2cf.models.DNSRecord` (a pydantic model). -/
structure DNSRecord where
  type : String
  name : String
  fqdn : String
  content : String
  ttl : Option Int := none
  priority : Option Int := none
  proxied : Option Bool := none
  comment : Option String := none
  cf_id : Option String := none
deriving DecidableEq, Repr

/-- `da2cf.models.ProxyPolicy`: the five proxy toggles. -/
structure ProxyPolicy where
  proxy_a : Bool := true
  proxy_aaaa : Bool := true
  proxy_cname : Bool := true
  proxy_host : Bool := true
  proxy_sub : Bool := true
deriving DecidableEq, Repr

/-- `ProxyPolicy.desired_proxied` from `da2cf/models.py`: `None` for types
other than A/AAAA/CNAME; `False` when the type toggle is off; else the host
toggle for the lowercased names `@`, `www`, `""` and the sub toggle
otherwise. -/
def ProxyPolicy.desired_proxied (p : ProxyPolicy) (record : DNSRecord) : Option Bool :=
  let t := pyUpper record.type
  if ¬ (t ∈ ["A", "AAAA", "CNAME"]) then none
  else
    let type_flag :=
      if t = "A" then p.proxy_a
      else if t = "AAAA" then p.proxy_aaaa
      else if t = "CNAME" then p.proxy_cname
      else false
    if ¬ type_flag then some false
    else
      let name := pyLower record.name
      let is_host := name ∈ ["@", "www", ""]
      if is_host then some p.proxy_host else some p.proxy_sub

/-- `record_key` from `da2cf/utils/dns.py`: the identity key
`(type.upper(), fqdn.lower(), priority or 0 if MX/SRV else 0)`. -/
def record_key (record : DNSRecord) : String × String × Int :=
  let t := pyUpper record.type
  let p0 := record.priority.getD 0
  let p1 := if ¬ (t ∈ ["MX", "SRV"]) then 0 else p0
  (t, pyLower record.fqdn, p1)

/-- `should_exclude` from `da2cf/utils/dns.py`: some pattern glob-matches
the record's relative name or its fqdn. -/
def should_exclude (record : DNSRecord) (patterns : List String) : Bool :=
  patterns.any (fun pattern => fnmatch record.name pattern || fnmatch record.fqdn pattern)

/-- `normalize_name` from `da2cf/utils/dns.py`: returns (relative name,
fqdn) for a raw provider name under a zone. -/
def normalize_name (name : String) (domain : String) : String × String :=
  let domain := pyLower (pyRstripChar domain '.')
  let raw := pyRstripChar (pyStripWs name) '.'
  if raw ∈ ["", "@", domain] then ("@", domain)
  else if pyEndsWith (pyLower raw) ("." ++ domain) then
    let rel := strTake raw (raw.length - (domain.length + 1))
    (rel, rel ++ "." ++ domain)
  else if ¬ strContainsChar raw '.' then (raw, raw ++ "." ++ domain)
  else (raw, raw)

/-- Accumulator loop for Python `s.split()`: `acc` holds the characters of
the word in progress, reversed. -/
def pyWordsAux : List Char → List Char → List String
  | acc, [] => if acc.isEmpty then [] else [String.mk acc.reverse]
  | acc, c :: rest =>
    if Char.isWhitespace c then
      if acc.isEmpty then pyWordsAux [] rest
      else String.mk acc.reverse :: pyWordsAux [] rest
    else pyWordsAux (c :: acc) rest

/-- Python `s.split()` (no separator): the maximal whitespace-separated
words, empty pieces discarded. -/
def pyWords (cs : List Char) : List String := pyWordsAux [] cs

/-- Python `s.split(sep)` for a one-character separator, keeping empty
pieces (so splitting the empty string yields `[""]`, as in CPython). -/
def pySplitChar (cs : List Char) (sep : Char) : List String :=
  match cs with
  | [] => [""]
  | c :: rest =>
    let r := pySplitChar rest sep
    if c == sep then "" :: r
    else
      match r with
      | [] => [String.mk [c]]
      | s :: t => String.mk (c :: s.data) :: t

/-- `normalize_txt_content` from `da2cf/utils/dns.py`: strip, remove one
pair of surrounding double quotes, collapse internal whitespace runs. -/
def normalize_txt_content (content : String) : String :=
  let stripped := pyStripWs content
  let stripped :=
    if pyStartsWith stripped "\"" && pyEndsWith stripped "\"" then
      String.mk (stripped.data.drop 1).dropLast
    else stripped
  String.intercalate " " (pyWords stripped.data)

/-- A raw DirectAdmin row, holding the dictionary slots that
`normalize_da_record` reads (`PyVal.absent` models a missing key). -/
structure DARow where
  type : PyVal := .absent
  record_type : PyVal := .absent
  name : PyVal := .absent
  host : PyVal := .absent
  value : PyVal := .absent
  data : PyVal := .absent
  content : PyVal := .absent
  ttl : PyVal := .absent
  priority : PyVal := .absent
deriving DecidableEq, Repr

/-- `normalize_da_record` from `da2cf/utils/dns.py`. -/
def normalize_da_record (row : DARow) (domain : String) : DNSRecord :=
  let rtype := pyUpper (PyVal.pyStr (pyOr row.type.getNone (pyOr row.record_type.getNone (.str ""))))
  let name := PyVal.pyStr (pyOr row.name.getNone (pyOr row.host.getNone (.str "@")))
  let value := PyVal.pyStr (pyOr row.value.getNone (pyOr row.data.getNone (pyOr row.content.getNone (.str ""))))
  let ttl := pyDigitToInt row.ttl.getNone
  let priority := pyDigitToInt row.priority.getNone
  let rf := normalize_name name domain
  let value := if rtype = "TXT" then normalize_txt_content value else value
  let value := if rtype = "CNAME" then pyRstripChar value '.' else value
  { type := rtype
    name := rf.1
    fqdn := rf.2
    content := value
    ttl := ttl.toOptInt
    priority := priority.toOptInt }

/-- A raw Cloudflare row, holding the dictionary slots that
`normalize_cf_record` reads. -/
structure CFRow where
  type : PyVal := .absent
  name : PyVal := .absent
  content : PyVal := .absent
  ttl : PyVal := .absent
  priority : PyVal := .absent
  proxied : PyVal := .absent
  comment : PyVal := .absent
  id : PyVal := .absent
deriving DecidableEq, Repr

/-- `normalize_cf_record` from `da2cf/utils/dns.py`, including the
`*.de5.net` deep-zone special case. -/
def normalize_cf_record (row : CFRow) : DNSRecord :=
  let rtype := pyUpper (PyVal.pyStr (row.type.get (.str "")))
  let name := PyVal.pyStr (row.name.get (.str ""))
  let content := PyVal.pyStr (row.content.get (.str ""))
  let fqdn := pyLower (pyRstripChar name '.')
  let parts := pySplitChar fqdn.data '.'
  let rel :=
    if pyEndsWith fqdn ".de5.net" ∧ parts.length ≥ 3 then
      if parts.length = 3 then "@"
      else String.intercalate "." (parts.take (parts.length - 3))
    else
      if parts.length > 2 then String.intercalate "." (parts.take (parts.length - 2))
      else if parts.length = 2 then "@"
      else fqdn
  let content := if rtype = "TXT" then normalize_txt_content content else content
  let content := if rtype = "CNAME" then pyRstripChar content '.' else content
  { type := rtype
    name := rel
    fqdn := fqdn
    content := content
    ttl := row.ttl.getNone.toOptInt
    priority := row.priority.getNone.toOptInt
    proxied := row.proxied.getNone.toOptBool
    comment := row.comment.getNone.toOptStr
    cf_id := row.id.getNone.toOptStr }

/-- The identity key `(type, fqdn, priority)` used for matching. -/
abbrev RKey := String × String × Int

/-- Python `<` on strings over the character lists: lexicographic by code
point, a proper prefix is smaller. -/
def strLtData : List Char → List Char → Bool
  | [], [] => false
  | [], _ :: _ => true
  | _ :: _, [] => false
  | a :: as, b :: bs =>
    if a.toNat < b.toNat then true
    else if b.toNat < a.toNat then false
    else strLtData as bs

/-- Python `a < b` for strings. -/
def pyStrLt (a b : String) : Bool := strLtData a.data b.data

/-- Python ordering on identity-key tuples (`sorted(all_keys)`):
lexicographic, strings by code point. -/
def keyLe (a b : RKey) : Bool :=
  pyStrLt a.1 b.1 ||
    (a.1 == b.1 &&
      (pyStrLt a.2.1 b.2.1 || (a.2.1 == b.2.1 && decide (a.2.2 ≤ b.2.2))))

/-- `da2cf.models.PlanOperation`: one planned action, the (desired) record
it concerns, the matching current record if any, and for updates the
field-level change set `field → (old, new)` in insertion order. -/
structure PlanOperation where
  action : String
  record : DNSRecord
  current : Option DNSRecord := none
  changes : Option (List (String × Option String × Option String)) := none
deriving DecidableEq, Repr

/-- `da2cf.models.SyncPlan`: the five operation lists for one domain. -/
structure SyncPlan where
  domain : String
  creates : List PlanOperation
  updates : List PlanOperation
  deletes : List PlanOperation
  noops : List PlanOperation
  skips : List PlanOperation
deriving DecidableEq, Repr

/-- All operations of a plan, in list order. -/
def SyncPlan.allOps (p : SyncPlan) : List PlanOperation :=
  p.creates ++ p.updates ++ p.deletes ++ p.noops ++ p.skips

/-- The ACME-challenge exemption test of `_compute_plan` (lines 165–168 and
181–184 of `sync_service.py`): relative name starts with `_acme-challenge`
or fqdn starts with `_acme-challenge.`. -/
def acme_exempt (rec : DNSRecord) : Bool :=
  pyStartsWith rec.name "_acme-challenge" || pyStartsWith rec.fqdn "_acme-challenge."

/-- A record survives `_compute_plan`'s filtering: its uppercased type is
not NS/SOA, and it is ACME-exempt or not excluded by the patterns.  This is
the `continue` logic shared by the desired and current loops. -/
def plan_keep (patterns : List String) (rec : DNSRecord) : Bool :=
  !decide (pyUpper rec.type ∈ ["NS", "SOA"]) &&
    (acme_exempt rec || !should_exclude rec patterns)

/-- The in-place update `rec.proxied = desired_proxied` (line 171–173 of
`sync_service.py`), performed when `desired_proxied` is not `None`. -/
def applyDesiredProxied (policy : ProxyPolicy) (rec : DNSRecord) : DNSRecord :=
  match policy.desired_proxied rec with
  | some b => { rec with proxied := some b }
  | none => rec

/-- The `desired_list` built by `_compute_plan`'s first loop: records
surviving the filters, with the proxied flag overwritten. -/
def desired_list (policy : ProxyPolicy) (patterns : List String)
    (recs : List DNSRecord) : List DNSRecord :=
  (recs.filter (plan_keep patterns)).map (applyDesiredProxied policy)

/-- The `current_list` built by `_compute_plan`'s second loop: records
surviving the filters, unmodified. -/
def current_list (patterns : List String) (recs : List DNSRecord) : List DNSRecord :=
  recs.filter (plan_keep patterns)

/-- The keyed map a loop builds (`desired_map[record_key(rec)] = rec`):
a Python dict is insertion-ordered with last-write-wins, so lookups are
modelled by `List.lookup` on the reversed association list. -/
def assocOf (recs : List DNSRecord) : List (RKey × DNSRecord) :=
  (recs.map (fun r => (record_key r, r))).reverse

/-- Insert a key into an ascending list (insertion sort step). -/
def insertSorted (x : RKey) : List RKey → List RKey
  | [] => [x]
  | y :: ys => if keyLe x y then x :: y :: ys else y :: insertSorted x ys

/-- Ascending insertion sort by `keyLe`.  `keyLe` is a linear order and the
planner sorts a duplicate-free list, so the ascending result is unique and
this computes exactly what CPython's `sorted` returns. -/
def sortKeys : List RKey → List RKey
  | [] => []
  | x :: xs => insertSorted x (sortKeys xs)

/-- `sorted(set(desired_map) | set(current_map))` — the deduplicated keys of
both maps in ascending Python tuple order. -/
def plan_keys (dmap cmap : List (RKey × DNSRecord)) : List RKey :=
  sortKeys (((dmap.map Prod.fst) ++ (cmap.map Prod.fst)).dedup)

/-- `SyncService._normalized_content`: TXT verbatim, CNAME with trailing
dots stripped, everything else verbatim. -/
def _normalized_content (record : DNSRecord) : String :=
  if pyUpper record.type = "TXT" then record.content
  else if pyUpper record.type = "CNAME" then pyRstripChar record.content '.'
  else record.content

/-- Python `str(v)` for an `Optional[int]`. -/
def pyStrOptInt : Option Int → String
  | none => "None"
  | some n => toString n

/-- Python `str(v)` for an `Optional[bool]`. -/
def pyStrOptBool : Option Bool → String
  | none => "None"
  | some b => if b then "True" else "False"

/-- Python `str(b)` for a `bool`. -/
def pyStrBool (b : Bool) : String := if b then "True" else "False"

/-- The proxied-flag difference found at lines 227–234 of
`sync_service.py`: `some b` when `desired_proxied` resolves to `b` and the
current flag (`or False`) differs, else `none`. -/
def proxChangeOf (policy : ProxyPolicy) (d c : DNSRecord) : Option Bool :=
  match policy.desired_proxied d with
  | some b => if c.proxied.getD false ≠ b then some b else none
  | none => none

/-- The change set built for a matched key (lines 216–234 of
`sync_service.py`), in dict-insertion order: content, ttl, priority,
proxied, with the Python `str(...)` renderings of old and new values. -/
def matchedChanges (policy : ProxyPolicy) (d c : DNSRecord) :
    List (String × Option String × Option String) :=
  (if _normalized_content d ≠ _normalized_content c then
    [("content", (some c.content, some d.content))] else [])
  ++ (if d.ttl.getD 0 ≠ c.ttl.getD 0 then
    [("ttl", (some (pyStrOptInt c.ttl), some (pyStrOptInt d.ttl)))] else [])
  ++ (if d.priority.getD 0 ≠ c.priority.getD 0 then
    [("priority", (some (pyStrOptInt c.priority), some (pyStrOptInt d.priority)))] else [])
  ++ (match proxChangeOf policy d c with
     | some b => [("proxied", (some (pyStrOptBool c.proxied), some (pyStrBool b)))]
     | none => [])

/-- The value of the `desired_rec` variable after the matched-key branch:
the in-place assignment `desired_rec.proxied = desired_proxied` of line 234
has happened exactly when a proxied difference was found. -/
def matchedRecord (policy : ProxyPolicy) (d c : DNSRecord) : DNSRecord :=
  match proxChangeOf policy d c with
  | some b => { d with proxied := some b }
  | none => d

/-- The key-in-both-maps branch of `_compute_plan`'s main loop
(lines 216–253 of `sync_service.py`): any difference in normalized content,
ttl, priority or policy-resolved proxied flag yields an `update` carrying
exactly the differing fields, no difference a `noop`. -/
def matchedOp (policy : ProxyPolicy) (d c : DNSRecord) : PlanOperation :=
  if matchedChanges policy d c ≠ [] then
    { action := "update", record := matchedRecord policy d c, current := some c,
      changes := some (matchedChanges policy d c) }
  else
    { action := "noop", record := matchedRecord policy d c, current := some c,
      changes := none }

/-- The classification of one identity key by `_compute_plan`'s main loop
(lines 197–253 of `sync_service.py`): `none` when the key is in neither map
(unreachable for keys of `plan_keys`), otherwise the single operation the
loop appends for that key, whose `action` field names the list it goes to. -/
def opForKey (policy : ProxyPolicy) (managedU : List String)
    (dmap cmap : List (RKey × DNSRecord)) (key : RKey) : Option PlanOperation :=
  match dmap.lookup key, cmap.lookup key with
  | none, none => none
  | some d, none => some { action := "create", record := d, current := none }
  | none, some c =>
    if pyUpper c.type ∈ managedU then
      some { action := "delete", record := c, current := some c }
    else
      some { action := "noop", record := c, current := some c }
  | some d, some c => some (matchedOp policy d c)

/-- The five accumulating operation lists of `_compute_plan`. -/
structure PlanLists where
  creates : List PlanOperation := []
  updates : List PlanOperation := []
  deletes : List PlanOperation := []
  noops : List PlanOperation := []
  skips : List PlanOperation := []
deriving DecidableEq, Repr

/-- One iteration of `_compute_plan`'s classification loop: append the
key's operation to the list its action names. -/
def planStep (policy : ProxyPolicy) (managedU : List String)
    (dmap cmap : List (RKey × DNSRecord)) (acc : PlanLists) (key : RKey) : PlanLists :=
  match opForKey policy managedU dmap cmap key with
  | none => acc
  | some op =>
    if op.action = "create" then { acc with creates := acc.creates ++ [op] }
    else if op.action = "update" then { acc with updates := acc.updates ++ [op] }
    else if op.action = "delete" then { acc with deletes := acc.deletes ++ [op] }
    else if op.action = "noop" then { acc with noops := acc.noops ++ [op] }
    else acc

/-- `SyncService._compute_plan` from `da2cf/sync_service.py`: filter both
record sets, key them, and classify the sorted union of keys into
create/update/delete/noop operations. -/
def _compute_plan (domain : String) (desired current : List DNSRecord)
    (proxy_policy : ProxyPolicy) (managed_types : List String)
    (exclude_patterns : List String) : SyncPlan :=
  let managedU := managed_types.map pyUpper
  let dmap := assocOf (desired_list proxy_policy exclude_patterns desired)
  let cmap := assocOf (current_list exclude_patterns current)
  let keys := plan_keys dmap cmap
  let ls := keys.foldl (planStep proxy_policy managedU dmap cmap) {}
  { domain := domain, creates := ls.creates, updates := ls.updates,
    deletes := ls.deletes, noops := ls.noops, skips := ls.skips }

/-- The state of the caller's desired records after `_compute_plan`
returns: the Python loop assigns `rec.proxied = desired_proxied` in place on
every record that survives the filters (records dropped by `continue` are
untouched; `applyDesiredProxied` is the identity when `desired_proxied`
is `None`, and the second assignment at line 234 writes the same value). -/
def desired_after_plan (policy : ProxyPolicy) (patterns : List String)
    (recs : List DNSRecord) : List DNSRecord :=
  recs.map (fun rec =>
    if plan_keep patterns rec then applyDesiredProxied policy rec else rec)

/-- The Cloudflare mutation payload dictionary built by
`SyncService._to_cf_payload` (optional keys are absent when `none`). -/
structure CFPayload where
  type : String
  name : String
  content : String
  ttl : Option Int := none
  priority : Option Int := none
  proxied : Option Bool := none
  comment : Option String := none
deriving DecidableEq, Repr

/-- `SyncService._to_cf_payload`: quote TXT content if not already quoted;
`ttl` only when truthy (nonzero and not `None`); `priority` only for MX/SRV
when present; `proxied` only for A/AAAA/CNAME when present; `comment` only
when truthy (non-empty). -/
def _to_cf_payload (record : DNSRecord) : CFPayload :=
  let content :=
    if pyUpper record.type = "TXT" then
      if ¬ (pyStartsWith record.content "\"" ∧ pyEndsWith record.content "\"") then
        "\"" ++ record.content ++ "\""
      else record.content
    else record.content
  { type := record.type
    name := record.fqdn
    content := content
    ttl := match record.ttl with
      | some n => if n ≠ 0 then some n else none
      | none => none
    priority :=
      if pyUpper record.type ∈ ["MX", "SRV"] then record.priority else none
    proxied :=
      if pyUpper record.type ∈ ["A", "AAAA", "CNAME"] then record.proxied else none
    comment := match record.comment with
      | some s => if s ≠ "" then some s else none
      | none => none }

/-- One attempted Cloudflare mutation. -/
inductive CFCall where
  | create (zone_id : String) (payload : CFPayload)
  | update (zone_id : String) (record_id : String) (payload : CFPayload)
  | delete (zone_id : String) (record_id : String)
deriving DecidableEq, Repr

/-- A behaviour oracle for the Cloudflare client: `none` means the call
succeeds, `some e` means it raises an exception whose `str` is `e`. -/
def CFBehavior := CFCall → Option String

/-- The result of the `worker` closure of `SyncService._apply_operations`
for one operation: the outcome label, the reason/error string if any, and
the mutation calls attempted on the Cloudflare client. -/
def worker (beh : CFBehavior) (zone_id : String) (op : PlanOperation) :
    String × Option String × List CFCall :=
  if op.action = "create" then
    let call := CFCall.create zone_id (_to_cf_payload op.record)
    match beh call with
    | none => ("created", none, [call])
    | some e => ("error", some e, [call])
  else if op.action = "update" then
    match op.current with
    | none => ("skipped", some "missing cf_id for update", [])
    | some cur =>
      if ¬ pyTruthyS cur.cf_id then ("skipped", some "missing cf_id for update", [])
      else
        let call := CFCall.update zone_id (cur.cf_id.getD "") (_to_cf_payload op.record)
        match beh call with
        | none => ("updated", none, [call])
        | some e => ("error", some e, [call])
  else if op.action = "delete" then
    match op.current with
    | none => ("skipped", some "missing cf_id for delete", [])
    | some cur =>
      if ¬ pyTruthyS cur.cf_id then ("skipped", some "missing cf_id for delete", [])
      else
        let call := CFCall.delete zone_id (cur.cf_id.getD "")
        match beh call with
        | none => ("deleted", none, [call])
        | some e => ("skipped", some ("delete failed: " ++ e), [call])
  else if op.action = "noop" then ("noop", none, [])
  else ("noop", none, [])

/-- The aggregate result of `SyncService._apply_operations`: the `counts`
dictionary plus the trace of attempted Cloudflare mutations. -/
structure ApplyCounts where
  created : Nat := 0
  updated : Nat := 0
  deleted : Nat := 0
  skipped : Nat := 0
  noop : Nat := 0
  errors : List String := []
  calls : List CFCall := []
deriving DecidableEq, Repr

/-- The aggregation step of `_apply_operations`: `if result in counts:
counts[result] += 1` (the label `"error"` is not a key of `counts`), and
`if result == "error" and error: counts["errors"].append(error)` — note the
Python truthiness test drops an empty error string. -/
def tallyCount (acc : ApplyCounts) (lab : String) : ApplyCounts :=
  if lab = "created" then { acc with created := acc.created + 1 }
  else if lab = "updated" then { acc with updated := acc.updated + 1 }
  else if lab = "deleted" then { acc with deleted := acc.deleted + 1 }
  else if lab = "skipped" then { acc with skipped := acc.skipped + 1 }
  else if lab = "noop" then { acc with noop := acc.noop + 1 }
  else acc

def tallyError (acc : ApplyCounts) (lab : String) (err : Option String) : ApplyCounts :=
  if lab = "error" then
    match err with
    | some e => if e ≠ "" then { acc with errors := acc.errors ++ [e] } else acc
    | none => acc
  else acc

def tally (acc : ApplyCounts) (r : String × Option String × List CFCall) : ApplyCounts :=
  let acc := tallyCount acc r.1
  let acc := tallyError acc r.1 r.2.1
  { acc with calls := acc.calls ++ r.2.2 }

/-- `SyncService._apply_operations`: run the worker on every
create/update/delete/noop operation of the plan and aggregate.  The thread
pool's `as_completed` order only permutes `errors`; counts and the set of
attempted calls are order-independent, and they are modelled here in
submission order. -/
def _apply_operations (beh : CFBehavior) (zone_id : String) (plan : SyncPlan) : ApplyCounts :=
  ((plan.creates ++ plan.updates ++ plan.deletes ++ plan.noops).map
    (worker beh zone_id)).foldl tally {}

/-- The domain row fields that `apply_plan` reads and writes. -/
structure DomainState where
  name : String
  cf_zone_id : Option String := none
  cf_zone_exists : Bool := false
deriving DecidableEq, Repr

/-- The outcome fields of a `SyncRun` that `apply_plan` fills in. -/
structure RunState where
  status : String
  error_summary : Option String := none
  created_count : Nat := 0
  updated_count : Nat := 0
  deleted_count : Nat := 0
  skipped_count : Nat := 0
  noop_count : Nat := 0
deriving DecidableEq, Repr

/-- `SyncService.apply_plan` (the part inside the per-domain lock): resolve
the zone id if not cached (`resolve` is what `find_zone_by_name` returned);
if still falsy, fail with "Cloudflare zone not found" without dispatching
any operation; otherwise apply the operations and derive the run status.
Returns the updated domain state, the run outcome, and the trace of
attempted Cloudflare mutations. -/
def apply_plan (beh : CFBehavior) (resolve : Option String)
    (dom : DomainState) (plan : SyncPlan) : DomainState × RunState × List CFCall :=
  let dom :=
    if ¬ pyTruthyS dom.cf_zone_id then
      { dom with cf_zone_id := resolve, cf_zone_exists := pyTruthyS resolve }
    else dom
  if ¬ pyTruthyS dom.cf_zone_id then
    (dom, { status := "failed", error_summary := some "Cloudflare zone not found" }, [])
  else
    let results := _apply_operations beh (dom.cf_zone_id.getD "") plan
    (dom,
      { status := if results.errors = [] then "success" else "partial"
        error_summary :=
          if results.errors = [] then none
          else some (String.intercalate "; " results.errors)
        created_count := results.created
        updated_count := results.updated
        deleted_count := results.deleted
        skipped_count := results.skipped
        noop_count := results.noop },
      results.calls)

/-- Python `text.splitlines()` restricted to `\n` separators (the only line
ending the legacy DirectAdmin format uses); a trailing final newline
produces an extra empty piece here, which the parser skips as blank. -/
def pySplitLines (text : String) : List String := pySplitChar text.data '\n'

/-- `DirectAdminClient._parse_legacy_dns`: parse the line-oriented format
`name type content [ttl] [priority]`, skipping blanks and `#` comments. -/
def _parse_legacy_dns (text : String) (domain : String) : List DNSRecord :=
  (pySplitLines text).filterMap (fun line =>
    let line := pyStripWs line
    if line = "" ∨ pyStartsWith line "#" then none
    else
      let parts := pyWords line.data
      if parts.length < 3 then none
      else
        let name := parts.getD 0 ""
        let rtype := parts.getD 1 ""
        let content := parts.getD 2 ""
        let ttl : PyVal :=
          if parts.length ≥ 4 ∧ pyIsDigit (parts.getD 3 "") then
            .int (digitsToNat (parts.getD 3 ""))
          else .pynone
        let priority : PyVal :=
          if parts.length ≥ 5 ∧ pyIsDigit (parts.getD 4 "") then
            .int (digitsToNat (parts.getD 4 ""))
          else .pynone
        some (normalize_da_record
          { name := .str name, type := .str rtype, value := .str content,
            ttl := ttl, priority := priority } domain))

/-- The JSON document shape `DirectAdminClient._parse_json_dns` inspects:
either not a dict, or a dict whose `records` / `list` / `dns` slots may
each hold a list of rows (`none` models an absent key or a non-list value,
which the `isinstance(rows, list)` guard rejects). -/
inductive DAJsonData where
  | notDict
  | dict (records listRows dns : Option (List DARow))
deriving Repr

/-- The `or` chain `data.get("records") or data.get("list") or
data.get("dns")` over the three row slots: an empty list is falsy and falls
through, exactly as in Python (if every slot is falsy the chain's last
value is still iterated, producing no records, which coincides with
`none` here). -/
def pickRows (a b : Option (List DARow)) : Option (List DARow) :=
  match a with
  | some l => if l.isEmpty then b else some l
  | none => b

/-- `DirectAdminClient._record_from_mapping`: rows lacking a `name` or
`type` key are dropped. -/
def _record_from_mapping (row : DARow) (domain : String) : Option DNSRecord :=
  if row.name = PyVal.absent ∨ row.type = PyVal.absent then none
  else some (normalize_da_record row domain)

/-- `DirectAdminClient._parse_json_dns`. -/
def _parse_json_dns (data : DAJsonData) (domain : String) : List DNSRecord :=
  match data with
  | .notDict => []
  | .dict records listRows dns =>
    match pickRows records (pickRows listRows dns) with
    | none => []
    | some rows => rows.filterMap (fun row => _record_from_mapping row domain)

/-- An HTTP response as `DirectAdminClient.get_dns_records` sees it:
the final status code, the structured parse of the body (`none` models
`resp.json()` raising `ValueError`), and the raw body text. -/
structure DAResponse where
  status : Nat
  jsonData : Option DAJsonData
  text : String

/-- The response handling of `DirectAdminClient.get_dns_records`
(lines 145–160 of `clients/directadmin.py`): `resp.raise_for_status()`
raises `requests.HTTPError` exactly for status codes in [400, 600), which
the client catches and converts to an empty record set; otherwise parse the
body as JSON, falling back to the legacy text parser. -/
def get_dns_records (domain : String) (resp : DAResponse) : List DNSRecord :=
  if 400 ≤ resp.status ∧ resp.status < 600 then []
  else
    match resp.jsonData with
    | some data => _parse_json_dns data domain
    | none => _parse_legacy_dns resp.text domain

/-- The operation appended for a key restricted to one action label. -/
def opIfAction (policy : ProxyPolicy) (managedU : List String)
    (dmap cmap : List (RKey × DNSRecord)) (a : String) (key : RKey) : Option PlanOperation :=
  match opForKey policy managedU dmap cmap key with
  | some op => if op.action = a then some op else none
  | none => none

/-- A sample current-side record used by concrete witnesses. -/
def sampleCur : DNSRecord :=
  { type := "A", name := "www", fqdn := "www.example.com", content := "1.2.3.4",
    cf_id := some "r1" }

/-- A sample NS-type ACME-challenge record. -/
def nsAcmeRec : DNSRecord :=
  { type := "NS", name := "_acme-challenge", fqdn := "_acme-challenge.example.com",
    content := "ns1.example.com" }

/-- A sample SOA-type ACME-challenge record. -/
def soaAcmeRec : DNSRecord :=
  { type := "SOA", name := "_acme-challenge", fqdn := "_acme-challenge.example.com",
    content := "ns1.example.com. hostmaster.example.com. 1 7200 3600 1209600 3600" }

/-- A sample TXT-type ACME-challenge record. -/
def txtAcmeRec : DNSRecord :=
  { type := "TXT", name := "_acme-challenge", fqdn := "_acme-challenge.example.com",
    content := "validation-token" }

/-- The proxy decision as the specification words it (§4.4 and C5): "none
(not applicable) for every record whose type is not A, AAAA or CNAME; for
A/AAAA/CNAME false when that type's toggle is disabled, and otherwise the
host-level toggle when the record's name is `@`, `www` or empty, else the
subdomain toggle".  A second, spec-side definition kept for comparison with
the code's `ProxyPolicy.desired_proxied`. -/
def desiredProxiedSpec (p : ProxyPolicy) (rec : DNSRecord) : Option Bool :=
  if rec.type ∉ ["A", "AAAA", "CNAME"] then none
  else
    let toggle :=
      if rec.type = "A" then p.proxy_a
      else if rec.type = "AAAA" then p.proxy_aaaa
      else p.proxy_cname
    if ¬ toggle then some false
    else if rec.name ∈ ["@", "www", ""] then some p.proxy_host else some p.proxy_sub

/-- The proxy-policy-matrix toggles `{A:true, AAAA:false, CNAME:true,
host:true, sub:true}`. -/
def matrixPolicy : ProxyPolicy :=
  { proxy_a := true, proxy_aaaa := false, proxy_cname := true,
    proxy_host := true, proxy_sub := true }

/-- The desired record `www`/A of the proxy-policy matrix. -/
def recWwwA : DNSRecord :=
  { type := "A", name := "www", fqdn := "www.example.com", content := "1.2.3.4" }

/-- The desired record `www`/AAAA of the proxy-policy matrix. -/
def recWwwAAAA : DNSRecord :=
  { type := "AAAA", name := "www", fqdn := "www.example.com", content := "::1" }

/-- The desired record `blog`/CNAME of the proxy-policy matrix. -/
def recBlogCNAME : DNSRecord :=
  { type := "CNAME", name := "blog", fqdn := "blog.example.com",
    content := "target.example.com" }

/-- A third matrix record under a distinct name, used in executor examples. -/
def recXA : DNSRecord :=
  { type := "A", name := "x", fqdn := "x.example.com", content := "5.6.7.8" }

/-- A create operation for a record. -/
def opCreate (r : DNSRecord) : PlanOperation := { action := "create", record := r }

/-- A plan of three create operations. -/
def planThreeCreates : SyncPlan :=
  { domain := "example.com"
    creates := [opCreate recWwwA, opCreate recBlogCNAME, opCreate recXA]
    updates := []
    deletes := []
    noops := []
    skips := [] }

/-- A plan of one create operation. -/
def planOneCreate : SyncPlan :=
  { domain := "example.com"
    creates := [opCreate recWwwA]
    updates := []
    deletes := []
    noops := []
    skips := [] }

/-- A Cloudflare behaviour in which exactly the create of `x.example.com`
raises, with message "boom". -/
def behBoom : CFBehavior := fun call =>
  match call with
  | .create _ p => if p.name = "x.example.com" then some "boom" else none
  | _ => none

/-- A Cloudflare behaviour in which every call raises an exception whose
`str` is the empty string (as `raise Exception()` produces). -/
def behRaiseEmpty : CFBehavior := fun _ => some ""

/-- A domain whose zone id is cached. -/
def domZ1 : DomainState := { name := "example.com", cf_zone_id := some "z1" }

/-- The error message the aggregation loop appends for one worker result:
present exactly for an `"error"` outcome with a non-empty message. -/
def errPick (r : String × Option String × List CFCall) : Option String :=
  if r.1 = "error" then
    match r.2.1 with
    | some e => if e ≠ "" then some e else none
    | none => none
  else none

/-- The total of the five outcome counters. -/
def countSum (t : ApplyCounts) : Nat :=
  t.created + t.updated + t.deleted + t.skipped + t.noop

/-- The Python test `if not op.current or not op.current.cf_id` of the
worker: the matching current record is absent, or carries no (or an empty)
remote id. -/
def missingRemoteId (op : PlanOperation) : Bool :=
  match op.current with
  | none => true
  | some cur => !pyTruthyS cur.cf_id

/-- A string is entirely lowercase: ASCII lowercasing fixes every
character. -/
def isLowerB (s : String) : Bool := s.data.all (fun c => pyLowerChar c == c)

/-- A string has a trailing dot. -/
def endsWithDotB (s : String) : Bool := s.data.getLast? == some '.'

/-- A DirectAdmin row with an uppercase bare-label name. -/
def rowUpperWWW : DARow := { name := .str "WWW", type := .str "A", value := .str "1.2.3.4" }

/-- A DirectAdmin row with a lowercase bare-label name. -/
def rowLowerWww : DARow := { name := .str "www", type := .str "A", value := .str "1.2.3.4" }

/-- A DirectAdmin row for the zone apex. -/
def rowAt : DARow := { name := .str "@", type := .str "A", value := .str "1.2.3.4" }

theorem foldl_planStep (policy : ProxyPolicy) (managedU : List String)
    (dmap cmap : List (RKey × DNSRecord)) (keys : List RKey) (acc : PlanLists) :
    keys.foldl (planStep policy managedU dmap cmap) acc =
      { creates := acc.creates ++ keys.filterMap (opIfAction policy managedU dmap cmap "create")
        updates := acc.updates ++ keys.filterMap (opIfAction policy managedU dmap cmap "update")
        deletes := acc.deletes ++ keys.filterMap (opIfAction policy managedU dmap cmap "delete")
        noops := acc.noops ++ keys.filterMap (opIfAction policy managedU dmap cmap "noop")
        skips := acc.skips } := by
  induction keys generalizing acc with
  | nil => simp
  | cons k rest ih =>
    rw [List.foldl_cons, ih]
    simp only [List.filterMap_cons, planStep, opIfAction]
    cases hop : opForKey policy managedU dmap cmap k with
    | none => simp
    | some op =>
      by_cases h1 : op.action = "create"
      · simp [h1]
      · by_cases h2 : op.action = "update"
        · simp [h1, h2]
        · by_cases h3 : op.action = "delete"
          · simp [h1, h2, h3]
          · by_cases h4 : op.action = "noop"
            · simp [h1, h2, h3, h4]
            · simp [h1, h2, h3, h4]

theorem lookup_some_mem {l : List (RKey × DNSRecord)} {k : RKey} {v : DNSRecord}
    (h : l.lookup k = some v) : (k, v) ∈ l := by
  induction l with
  | nil => simp [List.lookup] at h
  | cons p rest ih =>
    rw [List.lookup] at h
    by_cases hk : k = p.1
    · simp [hk] at h
      subst h
      have : (k, p.2) = p := by
        rw [hk]
      rw [this]
      exact List.mem_cons_self p rest
    · have : (k == p.1) = false := beq_false_of_ne hk
      rw [this] at h
      exact List.mem_cons_of_mem _ (ih h)

theorem lookup_some_mem_fst {l : List (RKey × DNSRecord)} {k : RKey} {v : DNSRecord}
    (h : l.lookup k = some v) : k ∈ l.map Prod.fst := by
  have := lookup_some_mem h
  exact List.mem_map_of_mem Prod.fst this

theorem mem_fst_lookup_isSome {l : List (RKey × DNSRecord)} {k : RKey}
    (h : k ∈ l.map Prod.fst) : (l.lookup k).isSome := by
  induction l with
  | nil => simp at h
  | cons p rest ih =>
    rw [List.lookup]
    by_cases hk : k = p.1
    · simp [hk]
    · have hb : (k == p.1) = false := beq_false_of_ne hk
      rw [hb]
      apply ih
      simp at h
      rcases h with h | h
      · exact absurd h.symm (fun hx => hk hx.symm)
      · simpa using h

theorem assocOf_lookup_some {recs : List DNSRecord} {k : RKey} {v : DNSRecord}
    (h : (assocOf recs).lookup k = some v) : record_key v = k ∧ v ∈ recs := by
  have hm := lookup_some_mem h
  rw [assocOf, List.mem_reverse, List.mem_map] at hm
  obtain ⟨r, hr, heq⟩ := hm
  obtain ⟨h1, h2⟩ := Prod.mk.injEq _ _ _ _ ▸ heq
  subst h2
  exact ⟨h1, hr⟩

theorem mem_insertSorted {x a : RKey} {l : List RKey} :
    a ∈ insertSorted x l ↔ a = x ∨ a ∈ l := by
  induction l with
  | nil => simp [insertSorted]
  | cons y ys ih =>
    rw [insertSorted]
    split
    · simp
    · simp only [List.mem_cons, ih]
      tauto

theorem mem_sortKeys {a : RKey} {l : List RKey} : a ∈ sortKeys l ↔ a ∈ l := by
  induction l with
  | nil => simp [sortKeys]
  | cons x xs ih =>
    rw [sortKeys, mem_insertSorted, ih]
    simp

theorem mem_plan_keys {dmap cmap : List (RKey × DNSRecord)} {k : RKey} :
    k ∈ plan_keys dmap cmap ↔ k ∈ dmap.map Prod.fst ∨ k ∈ cmap.map Prod.fst := by
  rw [plan_keys, mem_sortKeys, List.mem_dedup, List.mem_append]

theorem record_key_applyDesiredProxied (policy : ProxyPolicy) (rec : DNSRecord) :
    record_key (applyDesiredProxied policy rec) = record_key rec := by
  rw [applyDesiredProxied]
  cases policy.desired_proxied rec <;> rfl

theorem record_key_set_proxied (rec : DNSRecord) (b : Bool) :
    record_key { rec with proxied := some b } = record_key rec := rfl

theorem compute_plan_eq (domain : String) (desired current : List DNSRecord)
    (policy : ProxyPolicy) (managed patterns : List String) :
    _compute_plan domain desired current policy managed patterns =
      { domain := domain
        creates := (plan_keys (assocOf (desired_list policy patterns desired))
            (assocOf (current_list patterns current))).filterMap
          (opIfAction policy (managed.map pyUpper)
            (assocOf (desired_list policy patterns desired))
            (assocOf (current_list patterns current)) "create")
        updates := (plan_keys (assocOf (desired_list policy patterns desired))
            (assocOf (current_list patterns current))).filterMap
          (opIfAction policy (managed.map pyUpper)
            (assocOf (desired_list policy patterns desired))
            (assocOf (current_list patterns current)) "update")
        deletes := (plan_keys (assocOf (desired_list policy patterns desired))
            (assocOf (current_list patterns current))).filterMap
          (opIfAction policy (managed.map pyUpper)
            (assocOf (desired_list policy patterns desired))
            (assocOf (current_list patterns current)) "delete")
        noops := (plan_keys (assocOf (desired_list policy patterns desired))
            (assocOf (current_list patterns current))).filterMap
          (opIfAction policy (managed.map pyUpper)
            (assocOf (desired_list policy patterns desired))
            (assocOf (current_list patterns current)) "noop")
        skips := [] } := by
  rw [_compute_plan]
  simp [foldl_planStep]

/-- C10: for every pair of desired and current record sets and every
policy/configuration, the SyncPlan returned by the planner has an empty
skips list — the classification loop only produces create, update, delete
and noop operations, so skip entries can arise only at apply time. -/
theorem plan_skips_always_empty (domain : String) (desired current : List DNSRecord)
    (policy : ProxyPolicy) (managed patterns : List String) :
    (_compute_plan domain desired current policy managed patterns).skips = [] := by
  rw [compute_plan_eq]

theorem matchedOp_action (policy : ProxyPolicy) (d c : DNSRecord) :
    (matchedOp policy d c).action = "update" ∨ (matchedOp policy d c).action = "noop" := by
  rw [matchedOp]
  split
  · left; rfl
  · right; rfl

theorem matchedRecord_key (policy : ProxyPolicy) (d c : DNSRecord) :
    record_key (matchedRecord policy d c) = record_key d := by
  rw [matchedRecord]
  cases proxChangeOf policy d c <;> rfl

theorem matchedRecord_type (policy : ProxyPolicy) (d c : DNSRecord) :
    (matchedRecord policy d c).type = d.type := by
  rw [matchedRecord]
  cases proxChangeOf policy d c <;> rfl

theorem matchedOp_record_key (policy : ProxyPolicy) (d c : DNSRecord) :
    record_key (matchedOp policy d c).record = record_key d := by
  rw [matchedOp]
  split <;> exact matchedRecord_key policy d c

theorem matchedOp_record_type (policy : ProxyPolicy) (d c : DNSRecord) :
    (matchedOp policy d c).record.type = d.type := by
  rw [matchedOp]
  split <;> exact matchedRecord_type policy d c

theorem opIfAction_some_elim {policy : ProxyPolicy} {managedU : List String}
    {dmap cmap : List (RKey × DNSRecord)} {a : String} {k : RKey} {op : PlanOperation}
    (h : opIfAction policy managedU dmap cmap a k = some op) :
    opForKey policy managedU dmap cmap k = some op ∧ op.action = a := by
  rw [opIfAction] at h
  cases hop : opForKey policy managedU dmap cmap k with
  | none => rw [hop] at h; cases h
  | some op' =>
    rw [hop] at h
    simp only at h
    by_cases ha : op'.action = a
    · rw [if_pos ha] at h
      injection h with h
      subst h
      exact ⟨rfl, ha⟩
    · rw [if_neg ha] at h
      cases h

theorem opForKey_some_cases {policy : ProxyPolicy} {managedU : List String}
    {dmap cmap : List (RKey × DNSRecord)} {k : RKey} {op : PlanOperation}
    (h : opForKey policy managedU dmap cmap k = some op) :
    (∃ d, dmap.lookup k = some d ∧ cmap.lookup k = none ∧
      op = { action := "create", record := d, current := none }) ∨
    (∃ c, dmap.lookup k = none ∧ cmap.lookup k = some c ∧
      pyUpper c.type ∈ managedU ∧
      op = { action := "delete", record := c, current := some c }) ∨
    (∃ c, dmap.lookup k = none ∧ cmap.lookup k = some c ∧
      pyUpper c.type ∉ managedU ∧
      op = { action := "noop", record := c, current := some c }) ∨
    (∃ d c, dmap.lookup k = some d ∧ cmap.lookup k = some c ∧
      op = matchedOp policy d c) := by
  rw [opForKey] at h
  cases hd : dmap.lookup k <;> cases hc : cmap.lookup k <;> rw [hd, hc] at h <;>
    simp only at h
  · cases h
  · rename_i c
    by_cases hm : pyUpper c.type ∈ managedU
    · rw [if_pos hm] at h
      injection h with h
      exact Or.inr (Or.inl ⟨c, rfl, rfl, hm, h.symm⟩)
    · rw [if_neg hm] at h
      injection h with h
      exact Or.inr (Or.inr (Or.inl ⟨c, rfl, rfl, hm, h.symm⟩))
  · rename_i d
    injection h with h
    exact Or.inl ⟨d, rfl, rfl, h.symm⟩
  · rename_i d c
    injection h with h
    exact Or.inr (Or.inr (Or.inr ⟨d, c, rfl, rfl, h.symm⟩))

theorem opIfAction_delete_managed {policy : ProxyPolicy} {managedU : List String}
    {dmap cmap : List (RKey × DNSRecord)} {k : RKey} {op : PlanOperation}
    (h : opIfAction policy managedU dmap cmap "delete" k = some op) :
    pyUpper op.record.type ∈ managedU := by
  obtain ⟨hop, ha⟩ := opIfAction_some_elim h
  rcases opForKey_some_cases hop with ⟨d, _, _, rfl⟩ | ⟨c, _, _, hm, rfl⟩ |
    ⟨c, _, _, _, rfl⟩ | ⟨d, c, _, _, rfl⟩
  · exact absurd ha (by simp)
  · exact hm
  · exact absurd ha (by simp)
  · rcases matchedOp_action policy d c with hu | hn
    · rw [ha] at hu
      exact absurd hu (by decide)
    · rw [ha] at hn
      exact absurd hn (by decide)

/-- C1: in plan computation, for every identity key present only in the
current (target) record map, the planner emits a delete operation if the
current record's uppercased type is in the managed-type set and a noop for
that record otherwise, and every delete operation in any computed plan
concerns a managed type — so records of unmanaged types are never scheduled
for deletion. -/
theorem current_only_delete_iff_managed
    (domain : String) (desired current : List DNSRecord) (policy : ProxyPolicy)
    (managed patterns : List String) (k : RKey) (rec : DNSRecord)
    (hd : (assocOf (desired_list policy patterns desired)).lookup k = none)
    (hc : (assocOf (current_list patterns current)).lookup k = some rec) :
    (pyUpper rec.type ∈ managed.map pyUpper →
      ({ action := "delete", record := rec, current := some rec } : PlanOperation) ∈
        (_compute_plan domain desired current policy managed patterns).deletes) ∧
    (pyUpper rec.type ∉ managed.map pyUpper →
      ({ action := "noop", record := rec, current := some rec } : PlanOperation) ∈
        (_compute_plan domain desired current policy managed patterns).noops) ∧
    (∀ op ∈ (_compute_plan domain desired current policy managed patterns).deletes,
      pyUpper op.record.type ∈ managed.map pyUpper) := by
  have hk : k ∈ plan_keys (assocOf (desired_list policy patterns desired))
      (assocOf (current_list patterns current)) :=
    mem_plan_keys.mpr (Or.inr (lookup_some_mem_fst hc))
  refine ⟨fun hm => ?_, fun hm => ?_, fun op hop => ?_⟩
  · rw [compute_plan_eq]
    refine List.mem_filterMap.mpr ⟨k, hk, ?_⟩
    rw [opIfAction, opForKey, hd, hc]
    simp [hm]
  · rw [compute_plan_eq]
    refine List.mem_filterMap.mpr ⟨k, hk, ?_⟩
    rw [opIfAction, opForKey, hd, hc]
    simp [hm]
  · rw [compute_plan_eq] at hop
    simp only [List.mem_filterMap] at hop
    obtain ⟨k', _, h⟩ := hop
    exact opIfAction_delete_managed h

/-- Witness for C1 at a concrete input: with one current-only A record,
managed types `["a"]` yield a delete and managed types `["TXT"]` yield a
noop. -/
theorem current_only_delete_iff_managed_witness :
    (assocOf (desired_list {} [] [])).lookup ("A", "www.example.com", 0) = none ∧
    (assocOf (current_list [] [sampleCur])).lookup ("A", "www.example.com", 0) =
      some sampleCur ∧
    ({ action := "delete", record := sampleCur,
       current := some sampleCur } : PlanOperation) ∈
      (_compute_plan "example.com" [] [sampleCur] {} ["a"] []).deletes ∧
    ({ action := "noop", record := sampleCur,
       current := some sampleCur } : PlanOperation) ∈
      (_compute_plan "example.com" [] [sampleCur] {} ["TXT"] []).noops := by
  refine ⟨by decide, by decide, ?_, ?_⟩
  · exact (current_only_delete_iff_managed "example.com" [] [sampleCur] {} ["a"] []
      ("A", "www.example.com", 0) sampleCur (by decide) (by decide)).1 (by decide)
  · exact ((current_only_delete_iff_managed "example.com" [] [sampleCur] {} ["TXT"] []
      ("A", "www.example.com", 0) sampleCur (by decide) (by decide)).2).1 (by decide)

theorem applyDesiredProxied_type (policy : ProxyPolicy) (rec : DNSRecord) :
    (applyDesiredProxied policy rec).type = rec.type := by
  rw [applyDesiredProxied]
  cases policy.desired_proxied rec <;> rfl

theorem mem_assocOf_fst {recs : List DNSRecord} {r : DNSRecord} (h : r ∈ recs) :
    record_key r ∈ (assocOf recs).map Prod.fst := by
  rw [assocOf]
  refine List.mem_map.mpr ⟨(record_key r, r), ?_, rfl⟩
  rw [List.mem_reverse]
  exact List.mem_map.mpr ⟨r, h, rfl⟩

theorem opForKey_isSome_of_mem {policy : ProxyPolicy} {managedU : List String}
    {dl cl : List DNSRecord} {k : RKey}
    (h : k ∈ (assocOf dl).map Prod.fst ∨ k ∈ (assocOf cl).map Prod.fst) :
    ∃ op, opForKey policy managedU (assocOf dl) (assocOf cl) k = some op ∧
      record_key op.record = k := by
  cases hd : (assocOf dl).lookup k with
  | some d =>
    cases hc : (assocOf cl).lookup k with
    | some c =>
      refine ⟨matchedOp policy d c, by rw [opForKey, hd, hc], ?_⟩
      rw [matchedOp_record_key]
      exact (assocOf_lookup_some hd).1
    | none =>
      exact ⟨{ action := "create", record := d, current := none },
        by rw [opForKey, hd, hc], (assocOf_lookup_some hd).1⟩
  | none =>
    cases hc : (assocOf cl).lookup k with
    | some c =>
      by_cases hm : pyUpper c.type ∈ managedU
      · exact ⟨{ action := "delete", record := c, current := some c },
          by rw [opForKey, hd, hc]; simp [hm], (assocOf_lookup_some hc).1⟩
      · exact ⟨{ action := "noop", record := c, current := some c },
          by rw [opForKey, hd, hc]; simp [hm], (assocOf_lookup_some hc).1⟩
    | none =>
      rcases h with h | h
      · have := mem_fst_lookup_isSome h
        rw [hd] at this
        cases this
      · have := mem_fst_lookup_isSome h
        rw [hc] at this
        cases this

theorem opForKey_action_cases {policy : ProxyPolicy} {managedU : List String}
    {dmap cmap : List (RKey × DNSRecord)} {k : RKey} {op : PlanOperation}
    (h : opForKey policy managedU dmap cmap k = some op) :
    op.action = "create" ∨ op.action = "update" ∨ op.action = "delete" ∨
      op.action = "noop" := by
  rcases opForKey_some_cases h with ⟨d, _, _, rfl⟩ | ⟨c, _, _, _, rfl⟩ |
    ⟨c, _, _, _, rfl⟩ | ⟨d, c, _, _, rfl⟩
  · left; rfl
  · right; right; left; rfl
  · right; right; right; rfl
  · rcases matchedOp_action policy d c with hu | hn
    · right; left; exact hu
    · right; right; right; exact hn

theorem mem_allOps_of_opForKey (domain : String) (desired current : List DNSRecord)
    (policy : ProxyPolicy) (managed patterns : List String) {k : RKey} {op : PlanOperation}
    (hk : k ∈ plan_keys (assocOf (desired_list policy patterns desired))
      (assocOf (current_list patterns current)))
    (hop : opForKey policy (managed.map pyUpper)
      (assocOf (desired_list policy patterns desired))
      (assocOf (current_list patterns current)) k = some op) :
    op ∈ (_compute_plan domain desired current policy managed patterns).allOps := by
  rw [SyncPlan.allOps, compute_plan_eq]
  simp only [List.mem_append, List.mem_filterMap]
  rcases opForKey_action_cases hop with ha | ha | ha | ha
  · exact Or.inl (Or.inl (Or.inl (Or.inl ⟨k, hk, by rw [opIfAction, hop]; simp [ha]⟩)))
  · exact Or.inl (Or.inl (Or.inl (Or.inr ⟨k, hk, by rw [opIfAction, hop]; simp [ha]⟩)))
  · exact Or.inl (Or.inl (Or.inr ⟨k, hk, by rw [opIfAction, hop]; simp [ha]⟩))
  · exact Or.inl (Or.inr ⟨k, hk, by rw [opIfAction, hop]; simp [ha]⟩)

theorem plan_keep_of_acme {patterns : List String} {rec : DNSRecord}
    (hacme : acme_exempt rec = true) (hns : pyUpper rec.type ∉ ["NS", "SOA"]) :
    plan_keep patterns rec = true := by
  rw [plan_keep, hacme]
  simp [hns]

/-- C3 counterexample: the claim quantifies over every record whose
relative name starts with `_acme-challenge`, but an NS-type record with
that name is dropped by the unconditional NS/SOA filter before the ACME
exemption is consulted, so it does not appear in the computed plan even
though it matches the blanket exclusion pattern `*`. -/
theorem acme_ns_record_missing_from_plan :
    pyStartsWith nsAcmeRec.name "_acme-challenge" = true ∧
    should_exclude nsAcmeRec ["*"] = true ∧
    (_compute_plan "example.com" [nsAcmeRec] [] {} ["A"] ["*"]).allOps = [] := by
  refine ⟨by decide, by decide, by decide⟩

/-- C3 (amended): for every record whose relative name starts with
`_acme-challenge` (or whose fqdn starts with `_acme-challenge.`) and whose
type is not NS/SOA, exclusion-pattern filtering is bypassed: whatever the
patterns, the record is retained in the filtered desired/current set and an
operation with its identity key appears in the computed plan. -/
theorem acme_records_bypass_exclusion
    (domain : String) (desired current : List DNSRecord) (policy : ProxyPolicy)
    (managed patterns : List String) (rec : DNSRecord)
    (hacme : acme_exempt rec = true)
    (hns : pyUpper rec.type ∉ ["NS", "SOA"]) :
    (rec ∈ desired →
      applyDesiredProxied policy rec ∈ desired_list policy patterns desired ∧
      ∃ op ∈ (_compute_plan domain desired current policy managed patterns).allOps,
        record_key op.record = record_key rec) ∧
    (rec ∈ current →
      rec ∈ current_list patterns current ∧
      ∃ op ∈ (_compute_plan domain desired current policy managed patterns).allOps,
        record_key op.record = record_key rec) := by
  have hkeep : plan_keep patterns rec = true := plan_keep_of_acme hacme hns
  constructor
  · intro hmem
    have hd : applyDesiredProxied policy rec ∈ desired_list policy patterns desired := by
      rw [desired_list]
      exact List.mem_map_of_mem _ (List.mem_filter.mpr ⟨hmem, hkeep⟩)
    refine ⟨hd, ?_⟩
    have hfst := mem_assocOf_fst hd
    have hk : record_key (applyDesiredProxied policy rec) ∈
        plan_keys (assocOf (desired_list policy patterns desired))
          (assocOf (current_list patterns current)) :=
      mem_plan_keys.mpr (Or.inl hfst)
    obtain ⟨op, hop, hkey⟩ :=
      @opForKey_isSome_of_mem policy (managed.map pyUpper) _ _ _ (Or.inl hfst)
    refine ⟨op, mem_allOps_of_opForKey domain desired current policy managed patterns hk hop, ?_⟩
    rw [hkey, record_key_applyDesiredProxied]
  · intro hmem
    have hc : rec ∈ current_list patterns current :=
      List.mem_filter.mpr ⟨hmem, hkeep⟩
    refine ⟨hc, ?_⟩
    have hfst := mem_assocOf_fst hc
    have hk : record_key rec ∈
        plan_keys (assocOf (desired_list policy patterns desired))
          (assocOf (current_list patterns current)) :=
      mem_plan_keys.mpr (Or.inr hfst)
    obtain ⟨op, hop, hkey⟩ :=
      @opForKey_isSome_of_mem policy (managed.map pyUpper) _ _ _ (Or.inr hfst)
    exact ⟨op, mem_allOps_of_opForKey domain desired current policy managed patterns hk hop, hkey⟩

/-- Witness for the amended C3 at a concrete input: a TXT ACME-challenge
record under the blanket exclusion pattern `*` is retained and keyed into
the plan. -/
theorem acme_records_bypass_exclusion_witness :
    applyDesiredProxied {} txtAcmeRec ∈ desired_list {} ["*"] [txtAcmeRec] ∧
    ∃ op ∈ (_compute_plan "example.com" [txtAcmeRec] [] {} ["A"] ["*"]).allOps,
      record_key op.record = record_key txtAcmeRec := by
  exact (acme_records_bypass_exclusion "example.com" [txtAcmeRec] [] {} ["A"] ["*"]
    txtAcmeRec (by decide) (by decide)).1 (by decide)

theorem plan_keep_not_ns_soa {patterns : List String} {rec : DNSRecord}
    (h : plan_keep patterns rec = true) : pyUpper rec.type ∉ ["NS", "SOA"] := by
  rw [plan_keep] at h
  intro hmem
  simp [hmem] at h

theorem mem_desired_list_elim {policy : ProxyPolicy} {patterns : List String}
    {recs : List DNSRecord} {r : DNSRecord}
    (h : r ∈ desired_list policy patterns recs) :
    ∃ r0, r0 ∈ recs ∧ plan_keep patterns r0 = true ∧ r = applyDesiredProxied policy r0 := by
  rw [desired_list] at h
  obtain ⟨r0, hr0, heq⟩ := List.mem_map.mp h
  obtain ⟨hmem, hkeep⟩ := List.mem_filter.mp hr0
  exact ⟨r0, hmem, hkeep, heq.symm⟩

theorem mem_current_list_elim {patterns : List String}
    {recs : List DNSRecord} {r : DNSRecord}
    (h : r ∈ current_list patterns recs) :
    r ∈ recs ∧ plan_keep patterns r = true := by
  rw [current_list] at h
  exact ⟨(List.mem_filter.mp h).1, (List.mem_filter.mp h).2⟩

theorem desired_list_not_ns_soa {policy : ProxyPolicy} {patterns : List String}
    {recs : List DNSRecord} {r : DNSRecord}
    (h : r ∈ desired_list policy patterns recs) : pyUpper r.type ∉ ["NS", "SOA"] := by
  obtain ⟨r0, _, hkeep, rfl⟩ := mem_desired_list_elim h
  rw [show (applyDesiredProxied policy r0).type = r0.type from applyDesiredProxied_type policy r0]
  exact plan_keep_not_ns_soa hkeep

/-- C9 counterexample: the claim says records named `_acme-challenge…` are
exempt from the NS/SOA filter, but the code drops NS/SOA unconditionally
before the ACME exemption is consulted — a desired SOA record named
`_acme-challenge` is removed from the filtered set and from the plan even
with no exclusion patterns configured. -/
theorem acme_soa_record_filtered :
    pyStartsWith soaAcmeRec.name "_acme-challenge" = true ∧
    desired_list {} [] [soaAcmeRec] = [] ∧
    (_compute_plan "example.com" [soaAcmeRec] [] {} ["A", "TXT"] []).allOps = [] := by
  refine ⟨by decide, by decide, by decide⟩

/-- C9 (amended): the NS/SOA filter is unconditional — no record of
uppercased type NS or SOA, ACME-named or not, survives the planner's
filtering of the desired or current set or appears in any operation of a
computed plan; the ACME exemption applies only to exclusion-pattern
filtering. -/
theorem ns_soa_dropped_unconditionally
    (domain : String) (desired current : List DNSRecord) (policy : ProxyPolicy)
    (managed patterns : List String) :
    (∀ r ∈ desired_list policy patterns desired, pyUpper r.type ∉ ["NS", "SOA"]) ∧
    (∀ r ∈ current_list patterns current, pyUpper r.type ∉ ["NS", "SOA"]) ∧
    (∀ op ∈ (_compute_plan domain desired current policy managed patterns).allOps,
      pyUpper op.record.type ∉ ["NS", "SOA"]) := by
  refine ⟨fun r hr => desired_list_not_ns_soa hr,
    fun r hr => plan_keep_not_ns_soa (mem_current_list_elim hr).2,
    fun op hop => ?_⟩
  rw [SyncPlan.allOps, compute_plan_eq] at hop
  simp only [List.mem_append, List.mem_filterMap, List.not_mem_nil, exists_false,
    or_false] at hop
  have hsome : ∃ k, opForKey policy (managed.map pyUpper)
      (assocOf (desired_list policy patterns desired))
      (assocOf (current_list patterns current)) k = some op := by
    rcases hop with ((⟨k, _, h⟩ | ⟨k, _, h⟩) | ⟨k, _, h⟩) | ⟨k, _, h⟩ <;>
      exact ⟨k, (opIfAction_some_elim h).1⟩
  obtain ⟨k, hk⟩ := hsome
  rcases opForKey_some_cases hk with ⟨d, hd, _, rfl⟩ | ⟨c, _, hc, _, rfl⟩ |
    ⟨c, _, hc, _, rfl⟩ | ⟨d, c, hd, _, rfl⟩
  · exact desired_list_not_ns_soa (assocOf_lookup_some hd).2
  · exact plan_keep_not_ns_soa (mem_current_list_elim (assocOf_lookup_some hc).2).2
  · exact plan_keep_not_ns_soa (mem_current_list_elim (assocOf_lookup_some hc).2).2
  · rw [show (matchedOp policy d c).record.type = d.type from matchedOp_record_type policy d c]
    exact desired_list_not_ns_soa (assocOf_lookup_some hd).2

/-- Witness for the amended C9 at a concrete input: the create operation
generated for a TXT ACME record has a non-NS/SOA type. -/
theorem ns_soa_dropped_unconditionally_witness :
    ({ action := "create", record := applyDesiredProxied {} txtAcmeRec, current := none } : PlanOperation) ∈
      (_compute_plan "example.com" [txtAcmeRec] [] {} ["A"] []).allOps ∧
    pyUpper (({ action := "create", record := applyDesiredProxied {} txtAcmeRec, current := none } : PlanOperation)).record.type ∉ ["NS", "SOA"] := by
  refine ⟨by decide, ?_⟩
  exact (ns_soa_dropped_unconditionally "example.com" [txtAcmeRec] [] {} ["A"] []).2.2
    _ (by decide)

/-- C5: `desired_proxied` returns none for types other than A/AAAA/CNAME,
false when the type's toggle is disabled, and otherwise the host toggle for
the names `@`/`www`/empty and the sub toggle for all other names (stated for
records whose type is already uppercase and name already lowercase, which is
how the claim words them; the code additionally uppercases/lowercases);
and concretely, the matrix `{A:true, AAAA:false, CNAME:true, host:true,
sub:true}` applied to desired `www`/A, `www`/AAAA, `blog`/CNAME against an
empty current set yields three creates with proxied true, false, true. -/
theorem desired_proxied_spec_and_matrix :
    (∀ (p : ProxyPolicy) (rec : DNSRecord),
      rec.type = pyUpper rec.type → rec.name = pyLower rec.name →
      p.desired_proxied rec = desiredProxiedSpec p rec) ∧
    ((_compute_plan "example.com" [recWwwA, recWwwAAAA, recBlogCNAME] []
        matrixPolicy ["A", "AAAA", "CNAME"] []).creates.map
      (fun op => (op.record.type, op.record.proxied))) =
      [("A", some true), ("AAAA", some false), ("CNAME", some true)] := by
  constructor
  · intro p rec ht hn
    rw [ProxyPolicy.desired_proxied, desiredProxiedSpec, ← ht, ← hn]
    by_cases hmem : rec.type ∈ ["A", "AAAA", "CNAME"]
    · simp only [hmem, not_true_eq_false, if_false, ite_not]
      have : rec.type = "A" ∨ rec.type = "AAAA" ∨ rec.type = "CNAME" := by
        simpa using hmem
      rcases this with h | h | h <;> rw [h] <;> simp
    · simp [hmem]
  · decide

/-- Witness for the spec equation of C5 at a concrete record: the matrix's
`www`/AAAA record resolves to proxied false both in the code and in the
spec formulation. -/
theorem desired_proxied_spec_and_matrix_witness :
    recWwwAAAA.type = pyUpper recWwwAAAA.type ∧
    recWwwAAAA.name = pyLower recWwwAAAA.name ∧
    matrixPolicy.desired_proxied recWwwAAAA = desiredProxiedSpec matrixPolicy recWwwAAAA := by
  refine ⟨by decide, by decide, ?_⟩
  exact desired_proxied_spec_and_matrix.1 matrixPolicy recWwwAAAA (by decide) (by decide)

/-- C6: when the target zone id is not cached (falsy) and zone resolution
yields no zone, `apply_plan` terminates with run status "failed" and error
summary "Cloudflare zone not found" (the "zone not found" failure outcome),
with zero operation counts, and attempts no create/update/delete mutation
against the target provider — whatever the behaviour of the Cloudflare
client and whatever the plan. -/
theorem zone_not_found_fails_without_mutations
    (beh : CFBehavior) (dom : DomainState) (plan : SyncPlan)
    (h : pyTruthyS dom.cf_zone_id = false) :
    (apply_plan beh none dom plan).2.1 =
      { status := "failed", error_summary := some "Cloudflare zone not found" } ∧
    (apply_plan beh none dom plan).2.2 = [] := by
  obtain ⟨nm, zid, ze⟩ := dom
  cases zid with
  | none => simp [apply_plan, pyTruthyS]
  | some s =>
    have hs : s = "" := by
      rw [pyTruthyS] at h
      simpa using h
    subst hs
    simp [apply_plan, pyTruthyS]

/-- Witness for C6 at a concrete input: an uncached domain with a failing
zone resolution and a one-create plan. -/
theorem zone_not_found_fails_without_mutations_witness :
    pyTruthyS (DomainState.cf_zone_id { name := "example.com" }) = false ∧
    (apply_plan (fun _ => none) none { name := "example.com" }
        (_compute_plan "example.com" [recWwwA] [] matrixPolicy ["A"] [])).2.1 =
      { status := "failed", error_summary := some "Cloudflare zone not found" } ∧
    (apply_plan (fun _ => none) none { name := "example.com" }
        (_compute_plan "example.com" [recWwwA] [] matrixPolicy ["A"] [])).2.2 = [] := by
  refine ⟨by decide, ?_⟩
  exact zone_not_found_fails_without_mutations (fun _ => none) { name := "example.com" }
    (_compute_plan "example.com" [recWwwA] [] matrixPolicy ["A"] []) (by decide)

theorem desired_proxied_set_proxied (policy : ProxyPolicy) (rec : DNSRecord) (b : Bool) :
    policy.desired_proxied { rec with proxied := some b } = policy.desired_proxied rec := rfl

theorem applyDesiredProxied_idem (policy : ProxyPolicy) (rec : DNSRecord) :
    applyDesiredProxied policy (applyDesiredProxied policy rec) =
      applyDesiredProxied policy rec := by
  cases h : policy.desired_proxied rec with
  | none =>
    have h0 : applyDesiredProxied policy rec = rec := by rw [applyDesiredProxied, h]
    rw [h0]
    exact h0
  | some b =>
    have h0 : applyDesiredProxied policy rec = { rec with proxied := some b } := by
      rw [applyDesiredProxied, h]
    rw [h0, applyDesiredProxied, desired_proxied_set_proxied, h]

theorem plan_keep_applyDesiredProxied (policy : ProxyPolicy) (patterns : List String)
    (rec : DNSRecord) :
    plan_keep patterns (applyDesiredProxied policy rec) = plan_keep patterns rec := by
  rw [applyDesiredProxied]
  cases policy.desired_proxied rec <;> rfl

theorem desired_after_keep (policy : ProxyPolicy) (patterns : List String)
    (r : DNSRecord) :
    plan_keep patterns
        (if plan_keep patterns r = true then applyDesiredProxied policy r else r) =
      plan_keep patterns r := by
  by_cases hk : plan_keep patterns r = true
  · rw [if_pos hk, plan_keep_applyDesiredProxied]
  · rw [if_neg hk]

theorem desired_after_apply (policy : ProxyPolicy) (patterns : List String)
    (r : DNSRecord) :
    applyDesiredProxied policy
        (if plan_keep patterns r = true then applyDesiredProxied policy r else r) =
      applyDesiredProxied policy r := by
  by_cases hk : plan_keep patterns r = true
  · rw [if_pos hk, applyDesiredProxied_idem]
  · rw [if_neg hk]

theorem desired_list_after (policy : ProxyPolicy) (patterns : List String)
    (recs : List DNSRecord) :
    desired_list policy patterns (desired_after_plan policy patterns recs) =
      desired_list policy patterns recs := by
  rw [desired_list, desired_list, desired_after_plan]
  induction recs with
  | nil => rfl
  | cons r rs ih =>
    simp only [List.map_cons, List.filter_cons, desired_after_keep]
    by_cases hk : plan_keep patterns r = true
    · simp only [hk, if_true, List.map_cons, desired_after_apply,
        applyDesiredProxied_idem, ih]
    · simp only [hk, if_false, ih]
      have hk' : plan_keep patterns r = false := by
        cases hp : plan_keep patterns r
        · rfl
        · exact absurd hp hk
      simp only [hk', Bool.false_eq_true, if_false, ih]

/-- C7 counterexample: `_compute_plan` does not leave its input records
unchanged — it overwrites the `proxied` flag of retained desired
A/AAAA/CNAME records in place, so after one call the caller's desired
record differs from what was passed in. -/
theorem compute_plan_mutates_desired_input :
    recWwwA.proxied = none ∧
    desired_after_plan matrixPolicy [] [recWwwA] =
      [{ recWwwA with proxied := some true }] ∧
    desired_after_plan matrixPolicy [] [recWwwA] ≠ [recWwwA] := by
  refine ⟨rfl, by decide, by decide⟩

/-- C7 (amended): plan computation performs no I/O and is deterministic (in
this pure embedding the same inputs give the same plan definitionally), and
although it mutates the `proxied` flag of retained desired records in place,
re-running it on the post-call state of the inputs yields the identical
plan, so repeated calls have no further effect; current records pass
through unmodified (every record of the filtered current set is one of the
caller's records, not a copy). -/
theorem compute_plan_idempotent_after_mutation
    (domain : String) (desired current : List DNSRecord) (policy : ProxyPolicy)
    (managed patterns : List String) :
    _compute_plan domain (desired_after_plan policy patterns desired) current
        policy managed patterns =
      _compute_plan domain desired current policy managed patterns ∧
    (∀ r ∈ current_list patterns current, r ∈ current) := by
  constructor
  · simp only [_compute_plan]
    rw [desired_list_after]
  · intro r hr
    exact (mem_current_list_elim hr).1

/-- Witness for the amended C7 at a concrete input: recomputing on the
mutated desired list gives the same plan, and the filtered current record
is the caller's record. -/
theorem compute_plan_idempotent_after_mutation_witness :
    _compute_plan "example.com" (desired_after_plan matrixPolicy [] [recWwwA]) [sampleCur]
        matrixPolicy ["A"] [] =
      _compute_plan "example.com" [recWwwA] [sampleCur] matrixPolicy ["A"] [] ∧
    sampleCur ∈ current_list [] [sampleCur] ∧ sampleCur ∈ [sampleCur] := by
  refine ⟨(compute_plan_idempotent_after_mutation "example.com" [recWwwA] [sampleCur]
    matrixPolicy ["A"] []).1, by decide,
    (compute_plan_idempotent_after_mutation "example.com" [recWwwA] [sampleCur]
      matrixPolicy ["A"] []).2 sampleCur (by decide)⟩

/-- C8 counterexample: "any non-2xx response returns an empty record set"
fails for a 3xx final response — `raise_for_status` raises only for 4xx/5xx,
so a 300 response with a parseable legacy body yields its records, not the
empty set. -/
theorem da_fetch_non2xx_not_always_empty :
    ¬ (200 ≤ 300 ∧ 300 < 300) ∧
    get_dns_records "example.com"
      { status := 300, jsonData := none, text := "www A 1.2.3.4" } ≠ [] := by
  refine ⟨by omega, by decide⟩

/-- C8 (amended): for every domain and every response whose status code is
4xx or 5xx (the codes for which `requests` raises `HTTPError`),
`get_dns_records` returns the empty record set instead of raising, so one
domain's outage does not halt a fleet-wide run; 1xx/2xx/3xx responses are
parsed normally. -/
theorem da_fetch_fail_open_on_http_error (domain : String) (resp : DAResponse)
    (h4 : 400 ≤ resp.status) (h6 : resp.status < 600) :
    get_dns_records domain resp = [] := by
  rw [get_dns_records, if_pos ⟨h4, h6⟩]

/-- Witness for the amended C8 at a concrete input: a 500 response whose
body would parse to one record still yields the empty set. -/
theorem da_fetch_fail_open_on_http_error_witness :
    400 ≤ 500 ∧ 500 < 600 ∧
    get_dns_records "example.com"
      { status := 500, jsonData := none, text := "www A 1.2.3.4" } = [] := by
  refine ⟨by omega, by omega, ?_⟩
  exact da_fetch_fail_open_on_http_error "example.com"
    { status := 500, jsonData := none, text := "www A 1.2.3.4" } (by decide) (by decide)

theorem worker_label (beh : CFBehavior) (zone_id : String) (op : PlanOperation) :
    (worker beh zone_id op).1 ∈
      ["created", "updated", "deleted", "skipped", "noop", "error"] := by
  rw [worker]
  by_cases h1 : op.action = "create"
  · rw [if_pos h1]
    cases hb : beh (CFCall.create zone_id (_to_cf_payload op.record)) <;> simp [hb]
  rw [if_neg h1]
  by_cases h2 : op.action = "update"
  · rw [if_pos h2]
    cases op.current with
    | none => simp
    | some cur =>
      by_cases hid : pyTruthyS cur.cf_id
      · simp only [hid, not_true_eq_false, if_false]
        cases hb : beh (CFCall.update zone_id (cur.cf_id.getD "") (_to_cf_payload op.record)) <;> simp [hb]
      · simp only [hid, not_false_eq_true, if_true]
        simp
  rw [if_neg h2]
  by_cases h3 : op.action = "delete"
  · rw [if_pos h3]
    cases op.current with
    | none => simp
    | some cur =>
      by_cases hid : pyTruthyS cur.cf_id
      · simp only [hid, not_true_eq_false, if_false]
        cases hb : beh (CFCall.delete zone_id (cur.cf_id.getD "")) <;> simp [hb]
      · simp only [hid, not_false_eq_true, if_true]
        simp
  rw [if_neg h3]
  by_cases h4 : op.action = "noop"
  · rw [if_pos h4]
    simp
  · rw [if_neg h4]
    simp

theorem tallyCount_errors (acc : ApplyCounts) (lab : String) :
    (tallyCount acc lab).errors = acc.errors := by
  rw [tallyCount]
  split_ifs <;> rfl

theorem tally_errors_step (acc : ApplyCounts) (r : String × Option String × List CFCall) :
    (tally acc r).errors = acc.errors ++ (errPick r).toList := by
  obtain ⟨lab, err, calls⟩ := r
  rw [tally]
  show (tallyError (tallyCount acc lab) lab err).errors = _
  rw [tallyError.eq_def, errPick]
  by_cases he : lab = "error"
  · rw [if_pos he]
    simp only [he, if_true]
    cases err with
    | none => simp [tallyCount_errors]
    | some e => by_cases h0 : e = "" <;> simp [h0, tallyCount_errors]
  · rw [if_neg he]
    simp only [he, if_false]
    simp [tallyCount_errors]

theorem tallyError_countSum (acc : ApplyCounts) (lab : String) (err : Option String) :
    countSum (tallyError acc lab err) = countSum acc := by
  rw [tallyError.eq_def]
  by_cases he : lab = "error"
  · rw [if_pos he]
    cases err with
    | none => rfl
    | some e =>
      simp only
      split_ifs <;> rfl
  · rw [if_neg he]

theorem tallyCount_countSum (acc : ApplyCounts) (lab : String)
    (h : lab ∈ ["created", "updated", "deleted", "skipped", "noop", "error"]) :
    countSum (tallyCount acc lab) = countSum acc + (if lab = "error" then 0 else 1) := by
  simp only [List.mem_cons, List.not_mem_nil, or_false] at h
  rcases h with rfl | rfl | rfl | rfl | rfl | rfl <;> simp [tallyCount, countSum] <;> omega

theorem tally_countSum (acc : ApplyCounts) (r : String × Option String × List CFCall)
    (h : r.1 ∈ ["created", "updated", "deleted", "skipped", "noop", "error"]) :
    countSum (tally acc r) = countSum acc + (if r.1 = "error" then 0 else 1) := by
  obtain ⟨lab, err, calls⟩ := r
  rw [tally]
  show countSum (tallyError (tallyCount acc lab) lab err) = _
  rw [tallyError_countSum]
  exact tallyCount_countSum acc lab h

theorem apply_errors_foldl (rs : List (String × Option String × List CFCall))
    (acc : ApplyCounts) :
    (rs.foldl tally acc).errors = acc.errors ++ rs.filterMap errPick := by
  induction rs generalizing acc with
  | nil => simp
  | cons r rest ih =>
    rw [List.foldl_cons, ih, tally_errors_step, List.filterMap_cons]
    cases errPick r <;> simp

theorem apply_countSum_foldl (rs : List (String × Option String × List CFCall))
    (acc : ApplyCounts)
    (h : ∀ r ∈ rs, r.1 ∈ ["created", "updated", "deleted", "skipped", "noop", "error"]) :
    countSum (rs.foldl tally acc) + (rs.filter (fun r => r.1 = "error")).length =
      countSum acc + rs.length := by
  induction rs generalizing acc with
  | nil => simp
  | cons r rest ih =>
    rw [List.foldl_cons, List.filter_cons]
    have hr := h r (List.mem_cons_self r rest)
    have hstep := tally_countSum acc r hr
    have hih := ih (tally acc r) (fun x hx => h x (List.mem_cons_of_mem r hx))
    by_cases he : r.1 = "error"
    · simp only [he, if_true] at hstep
      simp [he]
      omega
    · simp only [he, if_false] at hstep
      simp [he]
      omega

/-- C2 counterexample: "every other exception is appended to the aggregate
error list" fails for an exception whose string form is empty — the Python
guard `if result == "error" and error:` drops it, the operation is counted
nowhere, the error list stays empty, and the run is marked "success" even
though its only operation raised. -/
theorem apply_empty_error_message_dropped :
    (worker behRaiseEmpty "z1" (opCreate recWwwA)).1 = "error" ∧
    (_apply_operations behRaiseEmpty "z1" planOneCreate).errors = [] ∧
    (_apply_operations behRaiseEmpty "z1" planOneCreate).created = 0 ∧
    (apply_plan behRaiseEmpty none domZ1 planOneCreate).2.1.status = "success" := by
  refine ⟨by decide, by decide, by decide, by decide⟩

/-- C2 (amended): in the executor each operation is handled independently
and every operation is accounted for (the five counters plus the error
outcomes exhaust the dispatched operations, so no failure aborts a
sibling); a missing remote id on update/delete yields a skip with a reason
string; a delete is never recorded as an error (failures are downgraded to
skips); the aggregate error list collects exactly the non-empty messages of
error outcomes (an exception whose string form is empty is dropped); the
run status is "success" exactly when that error list is empty, else
"partial"; and concretely one of three creates raising leaves created=2,
one recorded error and status "partial". -/
theorem apply_operations_aggregation (beh : CFBehavior) (zone_id : String)
    (plan : SyncPlan) :
    (countSum (_apply_operations beh zone_id plan) +
      (((plan.creates ++ plan.updates ++ plan.deletes ++ plan.noops).map
          (worker beh zone_id)).filter (fun r => r.1 = "error")).length =
      (plan.creates ++ plan.updates ++ plan.deletes ++ plan.noops).length) ∧
    (∀ op : PlanOperation, op.action = "update" → missingRemoteId op = true →
      worker beh zone_id op = ("skipped", some "missing cf_id for update", [])) ∧
    (∀ op : PlanOperation, op.action = "delete" → missingRemoteId op = true →
      worker beh zone_id op = ("skipped", some "missing cf_id for delete", [])) ∧
    (∀ op : PlanOperation, op.action = "delete" →
      (worker beh zone_id op).1 = "deleted" ∨ (worker beh zone_id op).1 = "skipped") ∧
    ((_apply_operations beh zone_id plan).errors =
      ((plan.creates ++ plan.updates ++ plan.deletes ++ plan.noops).map
        (worker beh zone_id)).filterMap errPick) ∧
    (∀ (resolve : Option String) (dom : DomainState),
      pyTruthyS dom.cf_zone_id = true →
      (apply_plan beh resolve dom plan).2.1.status =
        (if (_apply_operations beh (dom.cf_zone_id.getD "") plan).errors = []
          then "success" else "partial")) ∧
    ((_apply_operations behBoom "z1" planThreeCreates).created = 2 ∧
      (_apply_operations behBoom "z1" planThreeCreates).errors = ["boom"] ∧
      (apply_plan behBoom none domZ1 planThreeCreates).2.1.status = "partial") := by
  refine ⟨?_, ?_, ?_, ?_, ?_, ?_, by decide, by decide, by decide⟩
  · rw [_apply_operations]
    have h := apply_countSum_foldl
      ((plan.creates ++ plan.updates ++ plan.deletes ++ plan.noops).map (worker beh zone_id))
      {} (by
        intro r hr
        obtain ⟨op, _, rfl⟩ := List.mem_map.mp hr
        exact worker_label beh zone_id op)
    simpa [countSum] using h
  · intro op ha hm
    rw [worker, if_neg (by rw [ha]; decide), if_pos ha]
    rw [missingRemoteId] at hm
    cases hc : op.current with
    | none => rfl
    | some cur =>
      rw [hc] at hm
      simp only at hm
      have : pyTruthyS cur.cf_id = false := by
        cases hp : pyTruthyS cur.cf_id
        · rfl
        · rw [hp] at hm; cases hm
      simp [this]
  · intro op ha hm
    rw [worker, if_neg (by rw [ha]; decide), if_neg (by rw [ha]; decide), if_pos ha]
    rw [missingRemoteId] at hm
    cases hc : op.current with
    | none => rfl
    | some cur =>
      rw [hc] at hm
      simp only at hm
      have : pyTruthyS cur.cf_id = false := by
        cases hp : pyTruthyS cur.cf_id
        · rfl
        · rw [hp] at hm; cases hm
      simp [this]
  · intro op ha
    rw [worker, if_neg (by rw [ha]; decide), if_neg (by rw [ha]; decide), if_pos ha]
    cases op.current with
    | none => right; rfl
    | some cur =>
      by_cases hid : pyTruthyS cur.cf_id
      · simp only [hid, not_true_eq_false, if_false]
        cases hb : beh (CFCall.delete zone_id (cur.cf_id.getD "")) <;> simp [hb]
      · simp only [hid, not_false_eq_true, if_true]
        right; rfl
  · rw [_apply_operations, apply_errors_foldl]
    rfl
  · intro resolve dom h
    rw [apply_plan]
    simp [h]

/-- Witness for the amended C2 at concrete inputs: an update whose current
record has no remote id is skipped with a reason, and the status of a
concrete apply follows the errors-empty test. -/
theorem apply_operations_aggregation_witness :
    ({ action := "update", record := recWwwA, current := some recWwwA } : PlanOperation).action = "update" ∧
    missingRemoteId ({ action := "update", record := recWwwA, current := some recWwwA } : PlanOperation) = true ∧
    worker behBoom "z1" ({ action := "update", record := recWwwA, current := some recWwwA } : PlanOperation) =
      ("skipped", some "missing cf_id for update", []) ∧
    pyTruthyS domZ1.cf_zone_id = true ∧
    (apply_plan behBoom none domZ1 planThreeCreates).2.1.status =
      (if (_apply_operations behBoom (domZ1.cf_zone_id.getD "") planThreeCreates).errors = []
        then "success" else "partial") := by
  refine ⟨by decide, by decide, ?_, by decide, ?_⟩
  · exact (apply_operations_aggregation behBoom "z1" planThreeCreates).2.1
      ({ action := "update", record := recWwwA, current := some recWwwA } : PlanOperation)
      (by decide) (by decide)
  · exact (apply_operations_aggregation behBoom "z1" planThreeCreates).2.2.2.2.2.1
      none domZ1 (by decide)

theorem char_toNat_ofNat_lt (n : Nat) (h : n < 55296) : (Char.ofNat n).toNat = n := by
  have hv : n.isValidChar := Or.inl h
  rw [Char.ofNat, dif_pos hv]
  simp [Char.ofNatAux, Char.toNat, UInt32.toNat, BitVec.toNat_ofNatLt]

theorem pyLowerChar_idem (c : Char) : pyLowerChar (pyLowerChar c) = pyLowerChar c := by
  by_cases h : 65 ≤ c.toNat ∧ c.toNat ≤ 90
  · have h1 : pyLowerChar c = Char.ofNat (c.toNat + 32) := by rw [pyLowerChar, if_pos h]
    have ht : (Char.ofNat (c.toNat + 32)).toNat = c.toNat + 32 :=
      char_toNat_ofNat_lt _ (by omega)
    rw [h1, pyLowerChar, if_neg (by rw [ht]; omega)]
  · have h1 : pyLowerChar c = c := by rw [pyLowerChar, if_neg h]
    rw [h1]
    exact h1

theorem pyLowerChar_ne_dot {c : Char} (h : c ≠ '.') : pyLowerChar c ≠ '.' := by
  by_cases hr : 65 ≤ c.toNat ∧ c.toNat ≤ 90
  · have h1 : pyLowerChar c = Char.ofNat (c.toNat + 32) := by rw [pyLowerChar, if_pos hr]
    have ht : (Char.ofNat (c.toNat + 32)).toNat = c.toNat + 32 :=
      char_toNat_ofNat_lt _ (by omega)
    rw [h1]
    intro heq
    have h2 := congrArg Char.toNat heq
    rw [ht] at h2
    have h3 : ('.' : Char).toNat = 46 := by decide
    rw [h3] at h2
    omega
  · have h1 : pyLowerChar c = c := by rw [pyLowerChar, if_neg hr]
    rw [h1]
    exact h

theorem isLowerB_pyLower (s : String) : isLowerB (pyLower s) = true := by
  rw [isLowerB, pyLower]
  rw [List.all_eq_true]
  rintro c hc
  obtain ⟨c0, _, rfl⟩ := List.mem_map.mp hc
  simp [pyLowerChar_idem]

theorem isLowerB_of_subset {s t : String} (hsub : ∀ c ∈ s.data, c ∈ t.data)
    (h : isLowerB t = true) : isLowerB s = true := by
  rw [isLowerB, List.all_eq_true]
  rw [isLowerB, List.all_eq_true] at h
  exact fun c hc => h c (hsub c hc)

theorem mem_pyStripWs {s : String} {c : Char} (h : c ∈ (pyStripWs s).data) :
    c ∈ s.data := by
  rw [pyStripWs] at h
  simp only [List.mem_reverse] at h
  have h1 := (List.dropWhile_sublist Char.isWhitespace).subset h
  rw [List.mem_reverse] at h1
  exact (List.dropWhile_sublist Char.isWhitespace).subset h1

theorem mem_pyRstripChar {s : String} {ch c : Char} (h : c ∈ (pyRstripChar s ch).data) :
    c ∈ s.data := by
  rw [pyRstripChar] at h
  simp only [List.mem_reverse] at h
  have h1 := (List.dropWhile_sublist (· == ch)).subset h
  rw [List.mem_reverse] at h1
  exact h1

theorem mem_strTake {s : String} {n : Nat} {c : Char} (h : c ∈ (strTake s n).data) :
    c ∈ s.data := by
  rw [strTake] at h
  exact List.mem_of_mem_take h

theorem isLowerB_append {a b : String} (ha : isLowerB a = true) (hb : isLowerB b = true) :
    isLowerB (a ++ b) = true := by
  rw [isLowerB] at ha hb ⊢
  rw [String.data_append, List.all_append, ha, hb]
  rfl

theorem endsWithDot_rstrip (s : String) : endsWithDotB (pyRstripChar s '.') = false := by
  rw [endsWithDotB, pyRstripChar]
  simp only
  rw [List.getLast?_reverse]
  have h := List.head?_dropWhile_not (· == '.') s.data.reverse
  cases hh : (s.data.reverse.dropWhile (· == '.')).head? with
  | none => simp
  | some c =>
    rw [hh] at h
    simp only at h
    have hc : c ≠ '.' := by simpa using h
    simp [hc]

theorem endsWithDot_pyLower {s : String} (h : endsWithDotB s = false) :
    endsWithDotB (pyLower s) = false := by
  rw [endsWithDotB] at h ⊢
  rw [pyLower]
  simp only
  rw [List.getLast?_map]
  cases hl : s.data.getLast? with
  | none => simp
  | some c =>
    rw [hl] at h
    have hc : c ≠ '.' := by simpa using h
    have hd := pyLowerChar_ne_dot hc
    simp [hd]

theorem endsWithDot_append_right {a b : String} (hb : b ≠ "")
    (h : endsWithDotB b = false) : endsWithDotB (a ++ b) = false := by
  rw [endsWithDotB] at h ⊢
  rw [String.data_append, List.getLast?_append]
  cases hl : b.data.getLast? with
  | none =>
    exfalso
    exact hb (String.ext (List.getLast?_eq_none_iff.mp hl))
  | some c =>
    rw [hl] at h
    have hc : c ≠ '.' := by simpa using h
    simp [Option.or, hc]

theorem pyLower_eq_empty {s : String} (h : pyLower s = "") : s = "" := by
  have hd := congrArg String.data h
  rw [pyLower] at hd
  simp only at hd
  exact String.ext (List.map_eq_nil_iff.mp hd)

theorem normalize_name_fqdn_lower (name domain : String) (h : isLowerB name = true) :
    isLowerB (normalize_name name domain).2 = true := by
  rw [normalize_name]
  have hdom : isLowerB (pyLower (pyRstripChar domain '.')) = true := isLowerB_pyLower _
  have hraw : isLowerB (pyRstripChar (pyStripWs name) '.') = true :=
    isLowerB_of_subset (fun c hc => mem_pyStripWs (mem_pyRstripChar hc)) h
  have hdot : isLowerB "." = true := by decide
  split_ifs
  · exact hdom
  · exact isLowerB_append
      (isLowerB_append (isLowerB_of_subset (fun c hc => mem_strTake hc) hraw) hdot) hdom
  · exact hraw
  · exact isLowerB_append (isLowerB_append hraw hdot) hdom

theorem normalize_name_fqdn_no_dot (name domain : String)
    (h : pyRstripChar domain '.' ≠ "") :
    endsWithDotB (normalize_name name domain).2 = false := by
  rw [normalize_name]
  have hdom : endsWithDotB (pyLower (pyRstripChar domain '.')) = false :=
    endsWithDot_pyLower (endsWithDot_rstrip domain)
  have hdomne : pyLower (pyRstripChar domain '.') ≠ "" :=
    fun he => h (pyLower_eq_empty he)
  have hraw : endsWithDotB (pyRstripChar (pyStripWs name) '.') = false :=
    endsWithDot_rstrip _
  split_ifs
  · exact hdom
  · exact endsWithDot_append_right hdomne hdom
  · exact hraw
  · exact endsWithDot_append_right hdomne hdom

/-- C4 counterexample: the fqdn produced by DA normalization is not always
lowercase — `normalize_name` lowercases the zone but keeps the raw name's
case, so a row named `WWW` under `example.com` yields fqdn
`WWW.example.com`; and with a degenerate zone (empty after dot-stripping)
the fqdn `www.` keeps a trailing dot. -/
theorem normalization_fqdn_not_always_lower :
    (normalize_da_record rowUpperWWW "example.com").fqdn = "WWW.example.com" ∧
    isLowerB (normalize_da_record rowUpperWWW "example.com").fqdn = false ∧
    (normalize_da_record rowLowerWww "").fqdn = "www." ∧
    endsWithDotB (normalize_da_record rowLowerWww "").fqdn = true := by
  refine ⟨by decide, by decide, by decide, by decide⟩

/-- C4 (amended): the fqdn of every Cloudflare-normalized record is
entirely lowercase with no trailing dot; the fqdn of a DA-normalized record
is the second component of `normalize_name` on the row's effective name,
which has no trailing dot whenever the zone is nonempty after dot-stripping
and is lowercase whenever the raw name is lowercase (the zone part is
always lowercased); a record named `@` under domain `example.com`
normalizes to fqdn `example.com`. -/
theorem normalization_fqdn_shape :
    (∀ row : CFRow, isLowerB (normalize_cf_record row).fqdn = true ∧
      endsWithDotB (normalize_cf_record row).fqdn = false) ∧
    (∀ (row : DARow) (domain : String),
      (normalize_da_record row domain).fqdn =
        (normalize_name
          (PyVal.pyStr (pyOr row.name.getNone (pyOr row.host.getNone (.str "@"))))
          domain).2) ∧
    (∀ name domain : String, isLowerB name = true →
      isLowerB (normalize_name name domain).2 = true) ∧
    (∀ name domain : String, pyRstripChar domain '.' ≠ "" →
      endsWithDotB (normalize_name name domain).2 = false) ∧
    (normalize_da_record rowAt "example.com").fqdn = "example.com" := by
  refine ⟨fun row => ⟨?_, ?_⟩, fun row domain => rfl, normalize_name_fqdn_lower,
    normalize_name_fqdn_no_dot, by decide⟩
  · show isLowerB (pyLower (pyRstripChar (PyVal.pyStr (row.name.get (.str ""))) '.')) = true
    exact isLowerB_pyLower _
  · show endsWithDotB (pyLower (pyRstripChar (PyVal.pyStr (row.name.get (.str ""))) '.')) = false
    exact endsWithDot_pyLower (endsWithDot_rstrip _)

/-- Witness for the amended C4 at concrete inputs: a lowercase name under a
mixed-case zone keeps the fqdn lowercase, and a normal zone yields no
trailing dot. -/
theorem normalization_fqdn_shape_witness :
    isLowerB "www" = true ∧
    isLowerB (normalize_name "www" "EXAMPLE.Com").2 = true ∧
    pyRstripChar "example.com" '.' ≠ "" ∧
    endsWithDotB (normalize_name "www" "example.com").2 = false := by
  refine ⟨by decide, normalization_fqdn_shape.2.2.1 "www" "EXAMPLE.Com" (by decide),
    by decide, normalization_fqdn_shape.2.2.2.1 "www" "example.com" (by decide)⟩
